import Mathlib

/-! # Streaming client session (`ingestion/client/cpp/streaming_client.cc`)

A shallow embedding of `StreamingClient::Run`, `SendConfig`, `SendContent` and
`ReadResponse`.  The gRPC stream, the byte source and the two mirrors are
external objects; their behaviour in one session is a parameter (`Channel`,
`IOReader`, `Flags`) and every call the client makes on them is recorded, in
program order, in a trace.

* The sender (the thread running `Run`) only uses the send direction of the
  stream and the receiver thread (`ReadResponse`) only the receive direction
  and its own mirror, so each thread has its own trace and no interleaving has
  to be chosen.
* `while (true)` in `SendContent` need not terminate (a pipe may never run
  dry), so the loop takes a bound `fuel` on its iterations and the result is
  `Except Fault _`; a failed `CHECK` is the other fault.
* The chunk size is a parameter of `SendContentWith` and `RunWith`;
  `SendContent` and `Run` are their instances at `kDataChunk`.  Statements
  proved for every chunk size hold for `SendContent` and `Run` by unfolding.
* The counters are machine integers: `int` is 32 bits and `long` 64 bits
  (LP64), both two's complement, and an increment that leaves the range wraps
  around (`wrapInt32`, `wrapInt64`).
* `Write` calls on the stream are numbered from 0: call 0 is the configuration
  write of `SendConfig`, call `j ≥ 1` the write of the `j`-th Content chunk.
-/

namespace api.video

/-- Raw bytes, as held in the `std::vector<char>` buffer. -/
abbrev Bytes := List UInt8

/-- Maximum data chunks read: 1 MByte. -/
def kDataChunk : Nat := 1 * 1024 * 1024

/-- The value an `int` (32 bits, two's complement) holds after being assigned
the mathematical result `x`.  An increment that leaves the range is undefined
behaviour in C++; the model takes the wrapped value the compiled code
produces. -/
def wrapInt32 (x : Int) : Int := (x + 2147483648) % 4294967296 - 2147483648

/-- The value a `long` (64 bits, two's complement) holds after being assigned
the mathematical result `x`: in `total_bytes_read += num_bytes_read` the sum is
formed in `size_t` and converted back to `long`. -/
def wrapInt64 (x : Int) : Int :=
  (x + 9223372036854775808) % 18446744073709551616 - 9223372036854775808

/-- The `StreamingVideoConfig` message; only `feature` is read by the client. -/
structure StreamingVideoConfig where
  feature : Nat
  deriving DecidableEq, Repr

/-- The `StreamingAnnotateVideoRequest` message: a oneof of `video_config` and
`input_content`, possibly unset. -/
inductive StreamingAnnotateVideoRequest where
  | not_set
  | video_config (c : StreamingVideoConfig)
  | input_content (data : Bytes)
  deriving DecidableEq, Repr

/-- The `annotation_results` field of a response, an uninterpreted payload. -/
structure StreamingVideoAnnotationResults where
  payload : Nat
  deriving DecidableEq, Repr

/-- The `StreamingAnnotateVideoResponse` message: `has_error()` is
`error.isSome`. -/
structure StreamingAnnotateVideoResponse where
  annotation_results : StreamingVideoAnnotationResults
  error : Option String
  deriving DecidableEq, Repr

/-- The accessor `has_error()` of a response. -/
def StreamingAnnotateVideoResponse.has_error (resp : StreamingAnnotateVideoResponse) : Bool :=
  resp.error.isSome

/-- The accessor chain `config_req.video_config().feature()`: the default
instance (feature 0) is returned when the oneof holds something else. -/
def StreamingAnnotateVideoRequest.feature : StreamingAnnotateVideoRequest → Nat
  | .video_config c => c.feature
  | _ => 0

/-- The interface `IOReader` (`io_reader.h`, implemented by `FileReader` and
`PipeReader`): `ReadBytes max s` gives the bytes placed in the buffer (their
number is the returned `size_t`) and the next state of the source. -/
structure IOReader (σ : Type) where
  ReadBytes : Nat → σ → Bytes × σ

/-- Modelled from the spec: the Byte Source capability
`readChunk(maxBytes) -> bytes (0 length signals end)` of a finite source
(`file_reader.cc` is not part of the sources at hand): a read returns the next
`min(max, remaining)` bytes, in order. -/
def FileReader : IOReader Bytes where
  ReadBytes := fun max s => (s.take max, s.drop max)

/-- The command-line flags the session reads, and the results of the three
`Open()` calls guarded by `CHECK`. -/
structure Flags where
  local_storage_annotation_result : String
  local_storage_video : String
  reader_open : Bool
  video_writer_open : Bool
  proto_writer_open : Bool

/-- The behaviour of `stream_` during one session: the result of the `n`-th
call of `Write` (counted from 0, the configuration write), of `WritesDone`, of
`Finish().ok()`, and the responses `Read` delivers before it returns false. -/
structure Channel where
  write_ok : Nat → Bool
  writes_done_ok : Bool
  finish_ok : Bool
  incoming : List StreamingAnnotateVideoResponse

/-- Calls made by the sending thread, in program order. -/
inductive Event where
  | Write (req : StreamingAnnotateVideoRequest) (ok : Bool)
  | ReadBytes (max : Nat) (data : Bytes)
  | WriteBytes (data : Bytes)
  | WritesDone (ok : Bool)
  | ReaderClose
  | WriterClose
  | Finish (ok : Bool)
  deriving DecidableEq, Repr

/-- Calls made by the receiving thread, in program order. -/
inductive RecvEvent where
  | Process (feature : Nat) (results : StreamingVideoAnnotationResults)
  | LogError (message : String)
  | WriteProto (results : StreamingVideoAnnotationResults)
  | Close
  deriving DecidableEq, Repr

/-- Ways an execution fails to return: a `CHECK` aborts the process, or the
model's loop bound is used up. -/
inductive Fault where
  | check_failed
  | out_of_fuel
  deriving DecidableEq, Repr

/-! ## ReadResponse -/

/-- Local state of `ReadResponse`. -/
structure RecvState where
  total_responses_received : Int
  trace : List RecvEvent
  deriving DecidableEq, Repr

/-- One iteration of the body of `while (stream_->Read(&resp))`. -/
def ReadResponseStep (feature : Nat) (enable_local_storage_annotation_result : Bool)
    (st : RecvState) (resp : StreamingAnnotateVideoResponse) : RecvState :=
  let st1 : RecvState :=
    { total_responses_received := wrapInt32 (st.total_responses_received + 1),
      trace := st.trace ++ [RecvEvent.Process feature resp.annotation_results] }
  if resp.has_error then
    { st1 with trace := st1.trace ++ [RecvEvent.LogError (resp.error.getD "")] }
  else if enable_local_storage_annotation_result then
    { st1 with trace := st1.trace ++ [RecvEvent.WriteProto resp.annotation_results] }
  else st1

/-- The loop `while (stream_->Read(&resp))` over the responses the channel
delivers. -/
def ReadResponseLoop (feature : Nat) (enable_local_storage_annotation_result : Bool) :
    List StreamingAnnotateVideoResponse → RecvState → RecvState
  | [], st => st
  | resp :: rest, st =>
    ReadResponseLoop feature enable_local_storage_annotation_result rest
      (ReadResponseStep feature enable_local_storage_annotation_result st resp)

/-- `StreamingClient::ReadResponse`. -/
def ReadResponse (flags : Flags) (feature : Nat) (ch : Channel) : Except Fault RecvState :=
  let enable_local_storage_annotation_result := flags.local_storage_annotation_result != ""
  if enable_local_storage_annotation_result && !flags.proto_writer_open then
    .error Fault.check_failed
  else
    let st := ReadResponseLoop feature enable_local_storage_annotation_result ch.incoming
      { total_responses_received := 0, trace := [] }
    if enable_local_storage_annotation_result then
      .ok { st with trace := st.trace ++ [RecvEvent.Close] }
    else .ok st

/-! ## SendConfig and SendContent -/

/-- State of the sending thread: the byte source, the number of `Write` calls
made on `stream_` so far, the locals of `SendContent`, and the trace.  The
counters are `int requests_sent` and `long total_bytes_read`. -/
structure SendState (σ : Type) where
  reader : σ
  stream_writes : Nat
  status : Bool
  requests_sent : Int
  total_bytes_read : Int
  trace : List Event

/-- `StreamingClient::SendConfig`: writes `config_req`, the message parsed from
the configuration document, and returns whether the write succeeded, with the
trace. -/
def SendConfig (config_req : StreamingAnnotateVideoRequest) (ch : Channel) : Bool × List Event :=
  let ok := ch.write_ok 0
  if !ok then (false, [Event.Write config_req ok]) else (true, [Event.Write config_req ok])

/-- The loop `while (true)` of `SendContent`, at most `fuel` iterations. -/
def SendContentLoop {σ : Type} (rd : IOReader σ) (ch : Channel) (chunk : Nat)
    (enable_local_storage_video : Bool) : Nat → SendState σ → Except Fault (SendState σ)
  | 0, _ => .error Fault.out_of_fuel
  | fuel + 1, st =>
    let r := rd.ReadBytes chunk st.reader
    let data := r.1
    let st1 : SendState σ :=
      { st with reader := r.2, trace := st.trace ++ [Event.ReadBytes chunk data] }
    if data.length = 0 then .ok st1
    else
      let req := StreamingAnnotateVideoRequest.input_content data
      let ok := ch.write_ok st1.stream_writes
      let st2 : SendState σ :=
        { st1 with stream_writes := st1.stream_writes + 1,
                   trace := st1.trace ++ [Event.Write req ok] }
      if !ok then .ok { st2 with status := false }
      else
        let st3 : SendState σ :=
          if enable_local_storage_video then
            { st2 with trace := st2.trace ++ [Event.WriteBytes data] }
          else st2
        SendContentLoop rd ch chunk enable_local_storage_video fuel
          { st3 with total_bytes_read := wrapInt64 (st3.total_bytes_read + data.length),
                     requests_sent := wrapInt32 (st3.requests_sent + 1) }

/-- What `SendContent` returns and reports. -/
structure SendResult (σ : Type) where
  status : Bool
  requests_sent : Int
  total_bytes_read : Int
  reader : σ
  trace : List Event

/-- `StreamingClient::SendContent` with chunk size `chunk`, started when
`stream_writes` calls of `Write` have been made. -/
def SendContentWith {σ : Type} (chunk : Nat) (flags : Flags) (rd : IOReader σ) (ch : Channel)
    (fuel : Nat) (r0 : σ) (stream_writes : Nat) : Except Fault (SendResult σ) :=
  if !flags.reader_open then .error Fault.check_failed
  else
    let enable_local_storage_video := flags.local_storage_video != ""
    if enable_local_storage_video && !flags.video_writer_open then .error Fault.check_failed
    else
      match SendContentLoop rd ch chunk enable_local_storage_video fuel
          { reader := r0, stream_writes := stream_writes, status := true,
            requests_sent := 0, total_bytes_read := 0, trace := [] } with
      | .error e => .error e
      | .ok st =>
        let wd := ch.writes_done_ok
        let status := if !wd then false else st.status
        let tr := st.trace ++ [Event.WritesDone wd] ++ [Event.ReaderClose]
        let tr := if enable_local_storage_video then tr ++ [Event.WriterClose] else tr
        .ok { status := status, requests_sent := st.requests_sent,
              total_bytes_read := st.total_bytes_read, reader := st.reader, trace := tr }

/-- `StreamingClient::SendContent`: the chunk size is `kDataChunk`. -/
def SendContent {σ : Type} (flags : Flags) (rd : IOReader σ) (ch : Channel)
    (fuel : Nat) (r0 : σ) (stream_writes : Nat) : Except Fault (SendResult σ) :=
  SendContentWith kDataChunk flags rd ch fuel r0 stream_writes

/-! ## Run -/

/-- What an execution of `Run` that returns has done. -/
structure RunResult (σ : Type) where
  status : Bool
  trace : List Event
  receiver : Option RecvState
  sender : Option (SendResult σ)

/-- `StreamingClient::Run` with chunk size `chunk`. -/
def RunWith {σ : Type} (chunk : Nat) (flags : Flags)
    (config_req : StreamingAnnotateVideoRequest) (rd : IOReader σ) (ch : Channel)
    (fuel : Nat) (r0 : σ) : Except Fault (RunResult σ) :=
  let cfg := SendConfig config_req ch
  if !cfg.1 then
    .ok { status := false, trace := cfg.2, receiver := none, sender := none }
  else
    match ReadResponse flags config_req.feature ch with
    | .error e => .error e
    | .ok recv =>
      match SendContentWith chunk flags rd ch fuel r0 1 with
      | .error e => .error e
      | .ok snd =>
        let grpc_ok := ch.finish_ok
        let status := if !grpc_ok then false else snd.status
        .ok { status := status, trace := cfg.2 ++ snd.trace ++ [Event.Finish grpc_ok],
              receiver := some recv, sender := some snd }

/-- `StreamingClient::Run`. -/
def Run {σ : Type} (flags : Flags) (config_req : StreamingAnnotateVideoRequest)
    (rd : IOReader σ) (ch : Channel) (fuel : Nat) (r0 : σ) : Except Fault (RunResult σ) :=
  RunWith kDataChunk flags config_req rd ch fuel r0

/-! ## Specification-side definitions

The pieces a finite in-order source is cut into, the events of one loop
iteration, the shape of a trace, observations on traces, and sample inputs. -/

/-- The successive reads `FileReader` serves for reads of at most `c` bytes:
the input cut into pieces of `c` bytes, the last one possibly shorter. -/
def chunks (c : Nat) (l : Bytes) : List Bytes :=
  if hcl : 0 < c ∧ l ≠ [] then
    have : (l.drop c).length < l.length := by
      have hpos : 0 < l.length := List.length_pos.mpr hcl.2
      rw [List.length_drop]
      omega
    l.take c :: chunks c (l.drop c)
  else []
termination_by l.length

/-- Events of one iteration of the loop of `SendContent` whose channel write
succeeds. -/
def sentEvents (chunk : Nat) (mirror : Bool) (d : Bytes) : List Event :=
  [Event.ReadBytes chunk d, Event.Write (.input_content d) true] ++
    (if mirror then [Event.WriteBytes d] else [])

/-- Events of the last iteration: a read of zero bytes, or a read followed by
a failed channel write. -/
def endEvents (chunk : Nat) : Option Bytes → List Event
  | none => [Event.ReadBytes chunk []]
  | some d => [Event.ReadBytes chunk d, Event.Write (.input_content d) false]

/-- Relation between the state `st` at loop entry and the state `st1` at loop
exit, when the chunks `ds` were sent and the loop ended by exhaustion
(`failed = none`) or by a failed write of `d` (`failed = some d`). -/
structure LoopShape {σ : Type} (ch : Channel) (chunk : Nat) (mirror : Bool)
    (st st1 : SendState σ) (ds : List Bytes) (failed : Option Bytes) : Prop where
  nonempty : ∀ d ∈ ds, d ≠ []
  failed_nonempty : ∀ d, failed = some d → d ≠ []
  trace_eq : st1.trace = st.trace ++ ds.flatMap (sentEvents chunk mirror) ++ endEvents chunk failed
  requests_sent_eq : wrapInt32 st.requests_sent = st.requests_sent →
    st1.requests_sent = wrapInt32 (st.requests_sent + ((ds.length : Nat) : Int))
  total_bytes_read_eq : wrapInt64 st.total_bytes_read = st.total_bytes_read →
    st1.total_bytes_read =
      wrapInt64 (st.total_bytes_read + (((ds.map List.length).sum : Nat) : Int))
  status_eq : st1.status = (st.status && failed.isNone)
  writes_ok : ∀ j, j < ds.length → ch.write_ok (st.stream_writes + j) = true
  write_failed : failed.isSome = true → ch.write_ok (st.stream_writes + ds.length) = false

/-- Whether the raw-byte mirror is enabled: `FLAGS_local_storage_video != ""`. -/
def Flags.enable_local_storage_video (flags : Flags) : Bool :=
  flags.local_storage_video != ""

/-- Whether the result mirror is enabled:
`FLAGS_local_storage_annotation_result != ""`. -/
def Flags.enable_local_storage_annotation_result (flags : Flags) : Bool :=
  flags.local_storage_annotation_result != ""

/-- The byte source and every enabled mirror open successfully, so that no
`CHECK` fails. -/
def Flags.opens_ok (flags : Flags) : Bool :=
  flags.reader_open &&
    (!flags.enable_local_storage_video || flags.video_writer_open) &&
    (!flags.enable_local_storage_annotation_result || flags.proto_writer_open)

/-- Events of `SendContent` after its loop: the half-close and the closes. -/
def closeEvents (ch : Channel) (mirror : Bool) : List Event :=
  [Event.WritesDone ch.writes_done_ok, Event.ReaderClose] ++
    (if mirror then [Event.WriterClose] else [])

/-- Relation between a result of `SendContent` and the chunks `ds` it sent,
the loop having ended by exhaustion (`failed = none`) or by a failed write of
`d` (`failed = some d`); `w` is the number of earlier `Write` calls. -/
structure SendShape {σ : Type} (ch : Channel) (chunk : Nat) (mirror : Bool) (w : Nat)
    (res : SendResult σ) (ds : List Bytes) (failed : Option Bytes) : Prop where
  nonempty : ∀ d ∈ ds, d ≠ []
  failed_nonempty : ∀ d, failed = some d → d ≠ []
  trace_eq : res.trace =
    ds.flatMap (sentEvents chunk mirror) ++ endEvents chunk failed ++ closeEvents ch mirror
  requests_sent_eq : res.requests_sent = wrapInt32 ((ds.length : Nat) : Int)
  total_bytes_read_eq :
    res.total_bytes_read = wrapInt64 (((ds.map List.length).sum : Nat) : Int)
  status_eq : res.status = (failed.isNone && ch.writes_done_ok)
  writes_ok : ∀ j, j < ds.length → ch.write_ok (w + j) = true
  write_failed : failed.isSome = true → ch.write_ok (w + ds.length) = false

/-- The state in which `SendContent` enters its loop. -/
def SendState.init {σ : Type} (r0 : σ) (w : Nat) : SendState σ :=
  { reader := r0, stream_writes := w, status := true, requests_sent := 0,
    total_bytes_read := 0, trace := [] }

/-- The result `SendContent` builds from the state at loop exit. -/
def SendResult.ofState {σ : Type} (ch : Channel) (mirror : Bool) (st : SendState σ) :
    SendResult σ :=
  { status := if !ch.writes_done_ok then false else st.status,
    requests_sent := st.requests_sent,
    total_bytes_read := st.total_bytes_read,
    reader := st.reader,
    trace := if mirror then
        st.trace ++ [Event.WritesDone ch.writes_done_ok] ++ [Event.ReaderClose] ++
          [Event.WriterClose]
      else st.trace ++ [Event.WritesDone ch.writes_done_ok] ++ [Event.ReaderClose] }

/-- Events of one iteration of the loop of `ReadResponse`. -/
def respEvents (feature : Nat) (enable : Bool) (resp : StreamingAnnotateVideoResponse) :
    List RecvEvent :=
  [RecvEvent.Process feature resp.annotation_results] ++
    (if resp.has_error then [RecvEvent.LogError (resp.error.getD "")]
     else if enable then [RecvEvent.WriteProto resp.annotation_results] else [])

/-- The payload of a Content message passed to `Write`, whatever the result. -/
def Event.contentPayload? : Event → Option Bytes
  | .Write (.input_content d) _ => some d
  | _ => none

/-- The payload of a Content message whose `Write` succeeded. -/
def Event.sentPayload? : Event → Option Bytes
  | .Write (.input_content d) true => some d
  | _ => none

/-- The bytes passed to `WriteBytes` on the raw-byte mirror. -/
def Event.mirrored? : Event → Option Bytes
  | .WriteBytes d => some d
  | _ => none

/-- A call of `WritesDone`. -/
def Event.isWritesDone : Event → Bool
  | .WritesDone _ => true
  | _ => false

/-- A call of `Write`. -/
def Event.isWrite : Event → Bool
  | .Write _ _ => true
  | _ => false

/-- A call of `ReadBytes` on the byte source. -/
def Event.isReadBytes : Event → Bool
  | .ReadBytes _ _ => true
  | _ => false

/-- A call of `Write` with a Configuration (`video_config`) message. -/
def Event.isConfigWrite : Event → Bool
  | .Write (.video_config _) _ => true
  | _ => false

/-- Payloads of the Content messages passed to `Write`, in order. -/
def contentPayloads (tr : List Event) : List Bytes := tr.filterMap Event.contentPayload?

/-- Payloads of the Content messages whose `Write` succeeded, in order. -/
def sentPayloads (tr : List Event) : List Bytes := tr.filterMap Event.sentPayload?

/-- Byte blocks written to the raw-byte mirror, in order. -/
def mirroredBytes (tr : List Event) : List Bytes := tr.filterMap Event.mirrored?

/-- The `(feature, annotation_results)` pairs passed to
`ProtoProcessor::Process`, in order. -/
def processed (tr : List RecvEvent) : List (Nat × StreamingVideoAnnotationResults) :=
  tr.filterMap fun e => match e with
    | .Process f r => some (f, r)
    | _ => none

/-- The records passed to `WriteProto` on the result mirror, in order. -/
def persisted (tr : List RecvEvent) : List StreamingVideoAnnotationResults :=
  tr.filterMap fun e => match e with
    | .WriteProto r => some r
    | _ => none

/-- The source `rd` hands over the bytes `remaining s` in order: every read
returns a prefix of what remains and leaves the rest, and a read of at least
one byte returns no bytes only when nothing remains. -/
structure InOrderSource {σ : Type} (rd : IOReader σ) (remaining : σ → Bytes) : Prop where
  read_prefix : ∀ max s,
    (rd.ReadBytes max s).1 ++ remaining (rd.ReadBytes max s).2 = remaining s
  read_nonempty : ∀ max s, 0 < max → remaining s ≠ [] → (rd.ReadBytes max s).1 ≠ []

/-- A sample in-order source with short reads: one byte per read, whatever the
size asked for, as a pipe may deliver. -/
def byteAtATimeReader : IOReader Bytes where
  ReadBytes := fun max s => (s.take (min max 1), s.drop (min max 1))

/-- Sample flags: both mirrors enabled, every `Open()` succeeds. -/
def demoFlags : Flags :=
  { local_storage_annotation_result := "annotations.pb", local_storage_video := "video.bin",
    reader_open := true, video_writer_open := true, proto_writer_open := true }

/-- Sample configuration request. -/
def demoConfig : StreamingAnnotateVideoRequest := .video_config { feature := 1 }

/-- Sample responses: the second one carries an in-band error. -/
def demoResponses : List StreamingAnnotateVideoResponse :=
  [{ annotation_results := { payload := 10 }, error := none },
   { annotation_results := { payload := 20 }, error := some "bad frame" },
   { annotation_results := { payload := 30 }, error := none }]

/-- A channel on which every call succeeds. -/
def channelOk : Channel :=
  { write_ok := fun _ => true, writes_done_ok := true, finish_ok := true,
    incoming := demoResponses }

/-- A channel on which every write succeeds and the final status is not OK. -/
def channelFinishFails : Channel :=
  { write_ok := fun _ => true, writes_done_ok := true, finish_ok := false,
    incoming := demoResponses }

/-- A channel that rejects the first write, the Configuration message. -/
def channelConfigFails : Channel :=
  { write_ok := fun n => n != 0, writes_done_ok := true, finish_ok := true, incoming := [] }

/-- A channel that rejects the third write, the second Content message. -/
def channelSecondChunkFails : Channel :=
  { write_ok := fun n => n != 2, writes_done_ok := true, finish_ok := true,
    incoming := demoResponses }

/-- A stream of `2 ^ 31` responses without error. -/
def manyResponses : List StreamingAnnotateVideoResponse :=
  List.replicate 2147483648 { annotation_results := { payload := 0 }, error := none }

/-- A channel that delivers `2 ^ 31` responses. -/
def channelManyResponses : Channel :=
  { write_ok := fun _ => true, writes_done_ok := true, finish_ok := true,
    incoming := manyResponses }

/-- An input of `2 ^ 51` bytes: `2 ^ 31` chunks of `kDataChunk` bytes. -/
def hugeInput : Bytes := List.replicate 2251799813685248 0

/-- A ten-byte input: five chunks of two bytes. -/
def demoInput : Bytes := [0, 1, 2, 3, 4, 5, 6, 7, 8, 9]

/-! ## Lemmas -/

theorem wrapInt32_idem (x : Int) : wrapInt32 (wrapInt32 x) = wrapInt32 x := by
  unfold wrapInt32; omega

theorem wrapInt64_idem (x : Int) : wrapInt64 (wrapInt64 x) = wrapInt64 x := by
  unfold wrapInt64; omega

theorem wrapInt32_add_left (x y : Int) : wrapInt32 (wrapInt32 x + y) = wrapInt32 (x + y) := by
  unfold wrapInt32; omega

theorem wrapInt64_add_left (x y : Int) : wrapInt64 (wrapInt64 x + y) = wrapInt64 (x + y) := by
  unfold wrapInt64; omega

theorem wrapInt32_of_lt (n : Nat) (h : n < 2147483648) : wrapInt32 n = n := by
  unfold wrapInt32; omega

theorem wrapInt64_of_lt (n : Nat) (h : n < 9223372036854775808) : wrapInt64 n = n := by
  unfold wrapInt64; omega

theorem chunks_nil (c : Nat) : chunks c [] = [] := by
  rw [chunks]; simp

theorem chunks_zero (l : Bytes) : chunks 0 l = [] := by
  rw [chunks]; simp

theorem chunks_cons (c : Nat) (l : Bytes) (hc : 0 < c) (hl : l ≠ []) :
    chunks c l = l.take c :: chunks c (l.drop c) := by
  rw [chunks]; simp [hc, hl]

theorem take_ne_nil_pos (c : Nat) (l : Bytes) (h : l.take c ≠ []) : 0 < c ∧ l ≠ [] := by
  constructor
  · rcases Nat.eq_zero_or_pos c with h0 | h0
    · subst h0; simp at h
    · exact h0
  · intro h0; subst h0; simp at h

theorem chunks_eq_nil_iff (c : Nat) (l : Bytes) : chunks c l = [] ↔ l.take c = [] := by
  by_cases hc : 0 < c
  · by_cases hl : l = []
    · subst hl; simp [chunks_nil]
    · rw [chunks_cons c l hc hl]
      simp [hl]; omega
  · have : c = 0 := by omega
    subst this; simp [chunks_zero]

theorem chunks_of_take_ne (c : Nat) (l : Bytes) (h : l.take c ≠ []) :
    chunks c l = l.take c :: chunks c (l.drop c) :=
  chunks_cons c l (take_ne_nil_pos c l h).1 (take_ne_nil_pos c l h).2

theorem chunks_flatten_aux (c : Nat) (hc : 0 < c) :
    ∀ (n : Nat) (l : Bytes), l.length ≤ n → (chunks c l).flatten = l := by
  intro n
  induction n with
  | zero =>
    intro l hl
    have : l = [] := List.length_eq_zero.mp (by omega)
    subst this; simp [chunks_nil]
  | succ n ih =>
    intro l hl
    by_cases h0 : l = []
    · subst h0; simp [chunks_nil]
    · rw [chunks_cons c l hc h0]
      have := ih (l.drop c) (by simp; omega)
      simp [this]

theorem chunks_flatten (c : Nat) (hc : 0 < c) (l : Bytes) : (chunks c l).flatten = l :=
  chunks_flatten_aux c hc l.length l (Nat.le_refl _)

theorem chunks_length_aux (c : Nat) (hc : 0 < c) :
    ∀ (n : Nat) (l : Bytes), l.length ≤ n → (chunks c l).length = (l.length + c - 1) / c := by
  intro n
  induction n with
  | zero =>
    intro l hl
    have : l = [] := List.length_eq_zero.mp (by omega)
    subst this
    simp [chunks_nil]
    exact (Nat.div_eq_of_lt (by omega)).symm
  | succ n ih =>
    intro l hl
    by_cases h0 : l = []
    · subst h0
      simp [chunks_nil]
      exact (Nat.div_eq_of_lt (by omega)).symm
    · rw [chunks_cons c l hc h0]
      have hpos : 0 < l.length := List.length_pos.mpr h0
      have := ih (l.drop c) (by simp; omega)
      simp only [List.length_cons, this, List.length_drop]
      by_cases hle : l.length ≤ c
      · have h1 : l.length - c = 0 := by omega
        rw [h1]
        have h2 : (0 + c - 1) / c = 0 := Nat.div_eq_of_lt (by omega)
        have h3 : (l.length + c - 1) / c = 1 := by
          apply Nat.div_eq_of_lt_le <;> omega
        omega
      · have h1 : l.length + c - 1 = (l.length - c + c - 1) + c := by omega
        rw [h1, Nat.add_div_right _ hc]

theorem chunks_length (c : Nat) (hc : 0 < c) (l : Bytes) :
    (chunks c l).length = (l.length + c - 1) / c :=
  chunks_length_aux c hc l.length l (Nat.le_refl _)

theorem chunks_getElem_length_aux (c : Nat) :
    ∀ (n : Nat) (l : Bytes), l.length ≤ n → ∀ (i : Nat) (h : i < (chunks c l).length),
      ((chunks c l)[i]).length = min c (l.length - i * c) := by
  intro n
  induction n with
  | zero =>
    intro l hl i h
    have : l = [] := List.length_eq_zero.mp (by omega)
    subst this
    simp [chunks_nil] at h
  | succ n ih =>
    intro l hl i h
    by_cases ht : l.take c = []
    · have := (chunks_eq_nil_iff c l).mpr ht
      simp [this] at h
    · have hc := chunks_of_take_ne c l ht
      have hpos := take_ne_nil_pos c l ht
      have hlen : 0 < l.length := List.length_pos.mpr hpos.2
      cases i with
      | zero => simp [hc]
      | succ j =>
        have hj : j < (chunks c (l.drop c)).length := by
          rw [hc] at h; simpa using h
        have := ih (l.drop c) (by simp; omega) j hj
        simp only [hc, List.getElem_cons_succ, this, List.length_drop]
        have : l.length - c - j * c = l.length - (j + 1) * c := by
          rw [Nat.add_mul]; omega
        rw [this]

theorem chunks_getElem_length (c : Nat) (l : Bytes) (i : Nat) (h : i < (chunks c l).length) :
    ((chunks c l)[i]).length = min c (l.length - i * c) :=
  chunks_getElem_length_aux c l.length l (Nat.le_refl _) i h

theorem chunks_take_flatten (c : Nat) :
    ∀ (j : Nat) (l : Bytes), j ≤ (chunks c l).length →
      ((chunks c l).take j).flatten = l.take (j * c) := by
  intro j
  induction j with
  | zero => intro l _; simp
  | succ j ih =>
    intro l hj
    by_cases ht : l.take c = []
    · have := (chunks_eq_nil_iff c l).mpr ht
      simp [this] at hj
    · rw [chunks_of_take_ne c l ht] at hj ⊢
      have hj2 : j ≤ (chunks c (l.drop c)).length := by simpa using hj
      simp only [List.take_succ_cons, List.flatten_cons, ih (l.drop c) hj2]
      have : (j + 1) * c = c + j * c := by rw [Nat.add_mul]; omega
      rw [this, List.take_add]

theorem SendContentLoop_step_exhausted {σ : Type} (rd : IOReader σ) (ch : Channel) (chunk : Nat)
    (mirror : Bool) (fuel : Nat) (st : SendState σ)
    (hd : (rd.ReadBytes chunk st.reader).1 = []) :
    SendContentLoop rd ch chunk mirror (fuel + 1) st =
      .ok { st with reader := (rd.ReadBytes chunk st.reader).2,
                    trace := st.trace ++ [Event.ReadBytes chunk []] } := by
  simp [SendContentLoop, hd]

theorem SendContentLoop_step_failed {σ : Type} (rd : IOReader σ) (ch : Channel) (chunk : Nat)
    (mirror : Bool) (fuel : Nat) (st : SendState σ)
    (hd : (rd.ReadBytes chunk st.reader).1 ≠ [])
    (hw : ch.write_ok st.stream_writes = false) :
    SendContentLoop rd ch chunk mirror (fuel + 1) st =
      .ok { reader := (rd.ReadBytes chunk st.reader).2,
            stream_writes := st.stream_writes + 1,
            status := false,
            requests_sent := st.requests_sent,
            total_bytes_read := st.total_bytes_read,
            trace := st.trace ++ endEvents chunk (some (rd.ReadBytes chunk st.reader).1) } := by
  simp [SendContentLoop, hd, hw, endEvents]

theorem SendContentLoop_step_sent {σ : Type} (rd : IOReader σ) (ch : Channel) (chunk : Nat)
    (mirror : Bool) (fuel : Nat) (st : SendState σ)
    (hd : (rd.ReadBytes chunk st.reader).1 ≠ [])
    (hw : ch.write_ok st.stream_writes = true) :
    SendContentLoop rd ch chunk mirror (fuel + 1) st =
      SendContentLoop rd ch chunk mirror fuel
        { reader := (rd.ReadBytes chunk st.reader).2,
          stream_writes := st.stream_writes + 1,
          status := st.status,
          requests_sent := wrapInt32 (st.requests_sent + 1),
          total_bytes_read :=
            wrapInt64 (st.total_bytes_read + (rd.ReadBytes chunk st.reader).1.length),
          trace := st.trace ++ sentEvents chunk mirror (rd.ReadBytes chunk st.reader).1 } := by
  cases mirror <;> simp [SendContentLoop, hd, hw, sentEvents]

theorem LoopShape.exhausted {σ : Type} (ch : Channel) (chunk : Nat) (mirror : Bool)
    (st : SendState σ) (r : σ) :
    LoopShape ch chunk mirror st
      { st with reader := r, trace := st.trace ++ [Event.ReadBytes chunk []] } [] none := by
  constructor
  · intro d hd; cases hd
  · intro d hd; cases hd
  · simp [endEvents]
  · intro h; simpa using h.symm
  · intro h; simpa using h.symm
  · simp
  · intro j hj; cases hj
  · intro hf; cases hf

theorem LoopShape.failed {σ : Type} (ch : Channel) (chunk : Nat) (mirror : Bool)
    (st : SendState σ) (r : σ) (d : Bytes) (hd : d ≠ [])
    (hw : ch.write_ok st.stream_writes = false) :
    LoopShape ch chunk mirror st
      { reader := r, stream_writes := st.stream_writes + 1, status := false,
        requests_sent := st.requests_sent, total_bytes_read := st.total_bytes_read,
        trace := st.trace ++ endEvents chunk (some d) } [] (some d) := by
  constructor
  · intro x hx; cases hx
  · intro x hx; injection hx with hx; rw [← hx]; exact hd
  · simp
  · intro h; simpa using h.symm
  · intro h; simpa using h.symm
  · simp
  · intro j hj; cases hj
  · intro _; simpa using hw

theorem LoopShape.cons {σ : Type} {ch : Channel} {chunk : Nat} {mirror : Bool}
    {st st1 : SendState σ} {ds : List Bytes} {failed : Option Bytes} (d : Bytes) (r : σ)
    (hd : d ≠ []) (hw : ch.write_ok st.stream_writes = true)
    (hs : LoopShape ch chunk mirror
      { reader := r, stream_writes := st.stream_writes + 1, status := st.status,
        requests_sent := wrapInt32 (st.requests_sent + 1),
        total_bytes_read := wrapInt64 (st.total_bytes_read + d.length),
        trace := st.trace ++ sentEvents chunk mirror d } st1 ds failed) :
    LoopShape ch chunk mirror st st1 (d :: ds) failed := by
  constructor
  · intro x hmem
    rcases List.mem_cons.mp hmem with h1 | h1
    · rw [h1]; exact hd
    · exact hs.nonempty x h1
  · exact hs.failed_nonempty
  · simp [hs.trace_eq, List.append_assoc]
  · intro _
    rw [hs.requests_sent_eq (wrapInt32_idem _)]
    simp only [List.length_cons, Nat.cast_add, Nat.cast_one]
    rw [wrapInt32_add_left]
    congr 1; omega
  · intro _
    rw [hs.total_bytes_read_eq (wrapInt64_idem _)]
    simp only [List.map_cons, List.sum_cons, Nat.cast_add]
    rw [wrapInt64_add_left]
    congr 1; omega
  · simpa using hs.status_eq
  · intro j hj
    cases j with
    | zero => simpa using hw
    | succ j =>
      have := hs.writes_ok j (by simpa using hj)
      simp only [] at this
      rw [← this]; congr 1; omega
  · intro hf
    have := hs.write_failed hf
    simp only [] at this
    rw [← this]; congr 1; simp; omega

/-- Every terminating run of the loop has the shape described by `LoopShape`. -/
theorem SendContentLoop_shape {σ : Type} (rd : IOReader σ) (ch : Channel) (chunk : Nat)
    (mirror : Bool) :
    ∀ (fuel : Nat) (st st1 : SendState σ),
      SendContentLoop rd ch chunk mirror fuel st = .ok st1 →
      ∃ ds failed, LoopShape ch chunk mirror st st1 ds failed := by
  intro fuel
  induction fuel with
  | zero => intro st st1 h; simp [SendContentLoop] at h
  | succ fuel ih =>
    intro st st1 h
    by_cases hd : (rd.ReadBytes chunk st.reader).1 = []
    · rw [SendContentLoop_step_exhausted rd ch chunk mirror fuel st hd] at h
      injection h with h
      subst h
      exact ⟨[], none, LoopShape.exhausted ch chunk mirror st _⟩
    · cases hw : ch.write_ok st.stream_writes with
      | false =>
        rw [SendContentLoop_step_failed rd ch chunk mirror fuel st hd hw] at h
        injection h with h
        subst h
        exact ⟨[], some (rd.ReadBytes chunk st.reader).1,
          LoopShape.failed ch chunk mirror st _ _ hd hw⟩
      | true =>
        rw [SendContentLoop_step_sent rd ch chunk mirror fuel st hd hw] at h
        obtain ⟨ds, failed, hs⟩ := ih _ st1 h
        exact ⟨(rd.ReadBytes chunk st.reader).1 :: ds, failed, LoopShape.cons _ _ hd hw hs⟩

/-- On a finite in-order source with every content write succeeding, the loop
returns once the fuel exceeds the number of chunks, having sent all of them. -/
theorem SendContentLoop_file_all (ch : Channel) (chunk : Nat) (mirror : Bool) :
    ∀ (fuel : Nat) (st : SendState Bytes),
      (chunks chunk st.reader).length < fuel →
      (∀ i, i < (chunks chunk st.reader).length → ch.write_ok (st.stream_writes + i) = true) →
      ∃ st1, SendContentLoop FileReader ch chunk mirror fuel st = .ok st1 ∧
        LoopShape ch chunk mirror st st1 (chunks chunk st.reader) none := by
  intro fuel
  induction fuel with
  | zero => intro st h; omega
  | succ fuel ih =>
    intro st hf hw
    by_cases hd : (FileReader.ReadBytes chunk st.reader).1 = []
    · rw [SendContentLoop_step_exhausted FileReader ch chunk mirror fuel st hd]
      have hc : chunks chunk st.reader = [] := (chunks_eq_nil_iff chunk st.reader).mpr hd
      exact ⟨_, rfl, by rw [hc]; exact LoopShape.exhausted ch chunk mirror st _⟩
    · have hc : chunks chunk st.reader =
          st.reader.take chunk :: chunks chunk (st.reader.drop chunk) :=
        chunks_of_take_ne chunk st.reader hd
      have hw0 : ch.write_ok st.stream_writes = true := by
        have := hw 0 (by rw [hc]; simp)
        simpa using this
      rw [SendContentLoop_step_sent FileReader ch chunk mirror fuel st hd hw0]
      obtain ⟨st1, h1, hs⟩ := ih
        { reader := st.reader.drop chunk, stream_writes := st.stream_writes + 1,
          status := st.status, requests_sent := wrapInt32 (st.requests_sent + 1),
          total_bytes_read := wrapInt64 (st.total_bytes_read + (st.reader.take chunk).length),
          trace := st.trace ++ sentEvents chunk mirror (st.reader.take chunk) }
        (by rw [hc] at hf; simpa using hf)
        (by
          intro i hi
          have := hw (i + 1) (by rw [hc]; simpa using hi)
          simp only []
          rw [← this]; congr 1; omega)
      refine ⟨st1, h1, ?_⟩
      rw [hc]
      exact LoopShape.cons _ _ hd hw0 hs

/-- On a finite in-order source, when the write of chunk number `k` (from 0)
is the first to fail, the loop returns after `k + 1` iterations having sent the
first `k` chunks. -/
theorem SendContentLoop_file_fail (ch : Channel) (chunk : Nat) (mirror : Bool) :
    ∀ (k fuel : Nat) (st : SendState Bytes) (hk : k < (chunks chunk st.reader).length),
      k < fuel →
      (∀ i, i < k → ch.write_ok (st.stream_writes + i) = true) →
      ch.write_ok (st.stream_writes + k) = false →
      ∃ st1, SendContentLoop FileReader ch chunk mirror fuel st = .ok st1 ∧
        LoopShape ch chunk mirror st st1 ((chunks chunk st.reader).take k)
          (some ((chunks chunk st.reader)[k])) := by
  intro k
  induction k with
  | zero =>
    intro fuel st hk hf _ hw
    obtain ⟨fuel, rfl⟩ : ∃ f, fuel = f + 1 := ⟨fuel - 1, by omega⟩
    have hne : chunks chunk st.reader ≠ [] := by
      intro h0; simp [h0] at hk
    have hd : (FileReader.ReadBytes chunk st.reader).1 ≠ [] :=
      fun h0 => hne ((chunks_eq_nil_iff chunk st.reader).mpr h0)
    have hc := chunks_of_take_ne chunk st.reader hd
    rw [SendContentLoop_step_failed FileReader ch chunk mirror fuel st hd (by simpa using hw)]
    refine ⟨_, rfl, ?_⟩
    have hsh := LoopShape.failed ch chunk mirror st (FileReader.ReadBytes chunk st.reader).2
      (FileReader.ReadBytes chunk st.reader).1 hd (by simpa using hw)
    simpa [hc, FileReader] using hsh
  | succ k ih =>
    intro fuel st hk hf hok hw
    obtain ⟨fuel, rfl⟩ : ∃ f, fuel = f + 1 := ⟨fuel - 1, by omega⟩
    have hne : chunks chunk st.reader ≠ [] := by
      intro h0; simp [h0] at hk
    have hd : (FileReader.ReadBytes chunk st.reader).1 ≠ [] :=
      fun h0 => hne ((chunks_eq_nil_iff chunk st.reader).mpr h0)
    have hc : chunks chunk st.reader =
        st.reader.take chunk :: chunks chunk (st.reader.drop chunk) :=
      chunks_of_take_ne chunk st.reader hd
    have hw0 : ch.write_ok st.stream_writes = true := by
      have := hok 0 (by omega)
      simpa using this
    rw [SendContentLoop_step_sent FileReader ch chunk mirror fuel st hd hw0]
    have hk2 : k < (chunks chunk (st.reader.drop chunk)).length := by
      rw [hc] at hk; simpa using hk
    obtain ⟨st1, h1, hs⟩ := ih fuel
      { reader := st.reader.drop chunk, stream_writes := st.stream_writes + 1,
        status := st.status, requests_sent := wrapInt32 (st.requests_sent + 1),
        total_bytes_read := wrapInt64 (st.total_bytes_read + (st.reader.take chunk).length),
        trace := st.trace ++ sentEvents chunk mirror (st.reader.take chunk) }
      hk2 (by omega)
      (by
        intro i hi
        have := hok (i + 1) (by omega)
        simp only []
        rw [← this]; congr 1; omega)
      (by
        simp only []
        rw [← hw]; congr 1; omega)
    refine ⟨st1, h1, ?_⟩
    have := @LoopShape.cons _ ch chunk mirror st st1 _ _ _ _ hd hw0 hs
    simpa [hc, FileReader] using this

theorem SendContentWith_of_loop {σ : Type} (chunk : Nat) (flags : Flags) (rd : IOReader σ)
    (ch : Channel) (fuel : Nat) (r0 : σ) (w : Nat) (st1 : SendState σ)
    (hr : flags.reader_open = true)
    (hv : flags.enable_local_storage_video = true → flags.video_writer_open = true)
    (hl : SendContentLoop rd ch chunk flags.enable_local_storage_video fuel
      (SendState.init r0 w) = .ok st1) :
    SendContentWith chunk flags rd ch fuel r0 w =
      .ok (SendResult.ofState ch flags.enable_local_storage_video st1) := by
  unfold Flags.enable_local_storage_video at hv hl
  unfold SendState.init at hl
  unfold SendContentWith
  simp only [hr, Bool.not_true, Bool.false_eq_true, if_false]
  cases hm : (flags.local_storage_video != "") with
  | false =>
    rw [hm] at hl
    simp [hl, SendResult.ofState, Flags.enable_local_storage_video, hm]
  | true =>
    rw [hm] at hl
    have := hv hm
    simp [hl, SendResult.ofState, Flags.enable_local_storage_video, hm, this]

theorem SendContentWith_ok_inv {σ : Type} (chunk : Nat) (flags : Flags) (rd : IOReader σ)
    (ch : Channel) (fuel : Nat) (r0 : σ) (w : Nat) (res : SendResult σ)
    (h : SendContentWith chunk flags rd ch fuel r0 w = .ok res) :
    flags.reader_open = true ∧
    (flags.enable_local_storage_video = true → flags.video_writer_open = true) ∧
    ∃ st1, SendContentLoop rd ch chunk flags.enable_local_storage_video fuel
        (SendState.init r0 w) = .ok st1 ∧
      res = SendResult.ofState ch flags.enable_local_storage_video st1 := by
  unfold SendContentWith at h
  cases hr : flags.reader_open with
  | false => simp [hr] at h
  | true =>
    simp only [hr, Bool.not_true, Bool.false_eq_true, if_false] at h
    cases hm : (flags.local_storage_video != "") with
    | false =>
      rw [hm] at h
      simp only [Bool.false_and, Bool.false_eq_true, if_false] at h
      split at h
      · simp at h
      · rename_i st heq
        injection h with h
        refine ⟨rfl, by simp [Flags.enable_local_storage_video, hm], st, ?_, ?_⟩
        · simpa [Flags.enable_local_storage_video, hm, SendState.init] using heq
        · rw [← h]; simp [SendResult.ofState, Flags.enable_local_storage_video, hm]
    | true =>
      rw [hm] at h
      cases hv : flags.video_writer_open with
      | false => simp [hv] at h
      | true =>
        simp only [hv, Bool.not_true, Bool.and_false, Bool.false_eq_true, if_false] at h
        split at h
        · simp at h
        · rename_i st heq
          injection h with h
          refine ⟨rfl, by simp, st, ?_, ?_⟩
          · simpa [Flags.enable_local_storage_video, hm, SendState.init] using heq
          · rw [← h]; simp [SendResult.ofState, Flags.enable_local_storage_video, hm]

theorem SendShape.of_loop {σ : Type} {ch : Channel} {chunk : Nat} {mirror : Bool} {w : Nat}
    {r0 : σ} {st1 : SendState σ} {ds : List Bytes} {failed : Option Bytes}
    (hs : LoopShape ch chunk mirror (SendState.init r0 w) st1 ds failed) :
    SendShape ch chunk mirror w (SendResult.ofState ch mirror st1) ds failed := by
  have h1 := hs.trace_eq
  have h2 := hs.requests_sent_eq (by unfold wrapInt32; simp [SendState.init])
  have h3 := hs.total_bytes_read_eq (by unfold wrapInt64; simp [SendState.init])
  have h4 := hs.status_eq
  have h5 := hs.writes_ok
  have h6 := hs.write_failed
  simp only [SendState.init, List.nil_append, Nat.zero_add, Bool.true_and, Int.zero_add]
    at h1 h2 h3 h4 h5 h6
  constructor
  · exact hs.nonempty
  · exact hs.failed_nonempty
  · cases mirror <;> simp [SendResult.ofState, h1, closeEvents, List.append_assoc]
  · simpa [SendResult.ofState] using h2
  · simpa [SendResult.ofState] using h3
  · cases hwd : ch.writes_done_ok <;> simp [SendResult.ofState, h4, hwd]
  · exact h5
  · exact h6

/-- Every returning execution of `SendContent` has the shape `SendShape`. -/
theorem SendContentWith_shape {σ : Type} (chunk : Nat) (flags : Flags) (rd : IOReader σ)
    (ch : Channel) (fuel : Nat) (r0 : σ) (w : Nat) (res : SendResult σ)
    (h : SendContentWith chunk flags rd ch fuel r0 w = .ok res) :
    ∃ ds failed, SendShape ch chunk flags.enable_local_storage_video w res ds failed := by
  obtain ⟨_, _, st1, hl, rfl⟩ := SendContentWith_ok_inv chunk flags rd ch fuel r0 w res h
  obtain ⟨ds, failed, hs⟩ := SendContentLoop_shape rd ch chunk _ fuel _ st1 hl
  exact ⟨ds, failed, SendShape.of_loop hs⟩

/-- On a finite in-order source the loop returns, whatever the write outcomes,
once the fuel exceeds the number of chunks. -/
theorem SendContentLoop_file_terminates (ch : Channel) (chunk : Nat) (mirror : Bool) :
    ∀ (fuel : Nat) (st : SendState Bytes),
      (chunks chunk st.reader).length < fuel →
      ∃ st1, SendContentLoop FileReader ch chunk mirror fuel st = .ok st1 := by
  intro fuel
  induction fuel with
  | zero => intro st h; omega
  | succ fuel ih =>
    intro st hf
    by_cases hd : (FileReader.ReadBytes chunk st.reader).1 = []
    · rw [SendContentLoop_step_exhausted FileReader ch chunk mirror fuel st hd]
      exact ⟨_, rfl⟩
    · cases hw : ch.write_ok st.stream_writes with
      | false =>
        rw [SendContentLoop_step_failed FileReader ch chunk mirror fuel st hd hw]
        exact ⟨_, rfl⟩
      | true =>
        rw [SendContentLoop_step_sent FileReader ch chunk mirror fuel st hd hw]
        have hc : chunks chunk st.reader =
            st.reader.take chunk :: chunks chunk (st.reader.drop chunk) :=
          chunks_of_take_ne chunk st.reader hd
        exact ih _ (by rw [hc] at hf; simpa using hf)

theorem SendContentWith_file_terminates (chunk : Nat) (flags : Flags) (ch : Channel)
    (fuel : Nat) (input : Bytes) (w : Nat)
    (hr : flags.reader_open = true)
    (hv : flags.enable_local_storage_video = true → flags.video_writer_open = true)
    (hf : (chunks chunk input).length < fuel) :
    ∃ res, SendContentWith chunk flags FileReader ch fuel input w = .ok res := by
  obtain ⟨st1, h1⟩ := SendContentLoop_file_terminates ch chunk
    flags.enable_local_storage_video fuel (SendState.init input w) hf
  exact ⟨_, SendContentWith_of_loop chunk flags FileReader ch fuel input w st1 hr hv h1⟩

theorem SendContentWith_file_all (chunk : Nat) (flags : Flags) (ch : Channel)
    (fuel : Nat) (input : Bytes) (w : Nat)
    (hr : flags.reader_open = true)
    (hv : flags.enable_local_storage_video = true → flags.video_writer_open = true)
    (hf : (chunks chunk input).length < fuel)
    (hw : ∀ i, i < (chunks chunk input).length → ch.write_ok (w + i) = true) :
    ∃ res, SendContentWith chunk flags FileReader ch fuel input w = .ok res ∧
      SendShape ch chunk flags.enable_local_storage_video w res (chunks chunk input) none := by
  obtain ⟨st1, h1, hs⟩ := SendContentLoop_file_all ch chunk
    flags.enable_local_storage_video fuel (SendState.init input w) hf hw
  exact ⟨_, SendContentWith_of_loop chunk flags FileReader ch fuel input w st1 hr hv h1,
    SendShape.of_loop hs⟩

theorem SendContentWith_file_fail (chunk : Nat) (flags : Flags) (ch : Channel)
    (fuel : Nat) (input : Bytes) (w k : Nat)
    (hr : flags.reader_open = true)
    (hv : flags.enable_local_storage_video = true → flags.video_writer_open = true)
    (hk : k < (chunks chunk input).length) (hf : k < fuel)
    (hw : ∀ i, i < k → ch.write_ok (w + i) = true)
    (hfail : ch.write_ok (w + k) = false) :
    ∃ res, SendContentWith chunk flags FileReader ch fuel input w = .ok res ∧
      SendShape ch chunk flags.enable_local_storage_video w res
        ((chunks chunk input).take k) (some ((chunks chunk input)[k])) := by
  obtain ⟨st1, h1, hs⟩ := SendContentLoop_file_fail ch chunk
    flags.enable_local_storage_video k fuel (SendState.init input w) hk hf hw hfail
  exact ⟨_, SendContentWith_of_loop chunk flags FileReader ch fuel input w st1 hr hv h1,
    SendShape.of_loop hs⟩

theorem ReadResponseStep_total (feature : Nat) (enable : Bool) (st : RecvState)
    (resp : StreamingAnnotateVideoResponse) :
    (ReadResponseStep feature enable st resp).total_responses_received =
      wrapInt32 (st.total_responses_received + 1) := by
  unfold ReadResponseStep
  by_cases he : resp.has_error = true
  · simp [he]
  · cases enable <;> simp [he]

theorem ReadResponseStep_trace (feature : Nat) (enable : Bool) (st : RecvState)
    (resp : StreamingAnnotateVideoResponse) :
    (ReadResponseStep feature enable st resp).trace =
      st.trace ++ respEvents feature enable resp := by
  unfold ReadResponseStep
  by_cases he : resp.has_error = true
  · simp [he, respEvents]
  · cases enable <;> simp [he, respEvents]

theorem ReadResponseLoop_spec (feature : Nat) (enable : Bool) :
    ∀ (incoming : List StreamingAnnotateVideoResponse) (st : RecvState),
      wrapInt32 st.total_responses_received = st.total_responses_received →
      ReadResponseLoop feature enable incoming st =
        { total_responses_received :=
            wrapInt32 (st.total_responses_received + ((incoming.length : Nat) : Int)),
          trace := st.trace ++ incoming.flatMap (respEvents feature enable) } := by
  intro incoming
  induction incoming with
  | nil =>
    intro st hst
    simp [ReadResponseLoop, hst]
  | cons resp rest ih =>
    intro st _
    rw [ReadResponseLoop, ih _ (by rw [ReadResponseStep_total]; exact wrapInt32_idem _),
      ReadResponseStep_total, ReadResponseStep_trace, wrapInt32_add_left]
    simp only [List.length_cons, Nat.cast_add, Nat.cast_one, List.flatMap_cons,
      List.append_assoc, RecvState.mk.injEq, and_true]
    congr 1; omega

theorem ReadResponse_eq (flags : Flags) (feature : Nat) (ch : Channel)
    (ho : flags.enable_local_storage_annotation_result = true → flags.proto_writer_open = true) :
    ReadResponse flags feature ch = .ok
      { total_responses_received := wrapInt32 ((ch.incoming.length : Nat) : Int),
        trace := ch.incoming.flatMap
            (respEvents feature flags.enable_local_storage_annotation_result) ++
          (if flags.enable_local_storage_annotation_result then [RecvEvent.Close] else []) } := by
  have h0 : wrapInt32 0 = 0 := by unfold wrapInt32; omega
  have key : ∀ en, ReadResponseLoop feature en ch.incoming
      { total_responses_received := 0, trace := [] } =
      { total_responses_received := wrapInt32 ((ch.incoming.length : Nat) : Int),
        trace := ch.incoming.flatMap (respEvents feature en) } := by
    intro en
    have := ReadResponseLoop_spec feature en ch.incoming
      { total_responses_received := 0, trace := [] } h0
    simpa using this
  unfold Flags.enable_local_storage_annotation_result at ho ⊢
  unfold ReadResponse
  cases hm : (flags.local_storage_annotation_result != "") with
  | false => simp [key]
  | true => simp [ho hm, key]

theorem processed_respEvents (feature : Nat) (en : Bool)
    (l : List StreamingAnnotateVideoResponse) :
    processed (l.flatMap (respEvents feature en)) =
      l.map (fun resp => (feature, resp.annotation_results)) := by
  induction l with
  | nil => simp [processed]
  | cons resp rest ih =>
    simp only [processed, List.flatMap_cons, List.filterMap_append] at ih ⊢
    rw [ih]
    by_cases he : resp.has_error = true
    · simp [respEvents, he]
    · cases en <;> simp [respEvents, he]

theorem processed_append_close (tr : List RecvEvent) (en : Bool) :
    processed (tr ++ (if en then [RecvEvent.Close] else [])) = processed tr := by
  cases en <;> simp [processed, List.filterMap_append]

/-- What `ReadResponse` returns whenever its mirror is disabled or opens. -/
theorem ReadResponse_spec (flags : Flags) (feature : Nat) (ch : Channel)
    (ho : flags.enable_local_storage_annotation_result = true → flags.proto_writer_open = true) :
    ∃ st, ReadResponse flags feature ch = .ok st ∧
      processed st.trace = ch.incoming.map (fun resp => (feature, resp.annotation_results)) ∧
      st.total_responses_received = wrapInt32 ((ch.incoming.length : Nat) : Int) :=
  ⟨_, ReadResponse_eq flags feature ch ho,
    by rw [processed_append_close, processed_respEvents], rfl⟩

theorem FileReader_inOrder : InOrderSource FileReader (fun s => s) := by
  constructor
  · intro max s; exact List.take_append_drop max s
  · intro max s hmax hs h
    have h1 : s.take max = [] := h
    rw [List.take_eq_nil_iff] at h1
    rcases h1 with h1 | h1
    · omega
    · exact hs h1

theorem byteAtATimeReader_inOrder : InOrderSource byteAtATimeReader (fun s => s) := by
  constructor
  · intro max s; exact List.take_append_drop (min max 1) s
  · intro max s hmax hs h
    have h1 : s.take (min max 1) = [] := h
    rw [List.take_eq_nil_iff] at h1
    rcases h1 with h1 | h1
    · omega
    · exact hs h1

/-- On an in-order source with every write succeeding, the loop returns once
the fuel exceeds the number of bytes that remain, and the chunks it sent
concatenate to those bytes. -/
theorem SendContentLoop_inOrder {σ : Type} (rd : IOReader σ) (remaining : σ → Bytes)
    (ch : Channel) (chunk : Nat) (mirror : Bool) (hsrc : InOrderSource rd remaining)
    (hc : 0 < chunk) (hw : ∀ i, ch.write_ok i = true) :
    ∀ (fuel : Nat) (st : SendState σ), (remaining st.reader).length < fuel →
      ∃ st1 ds, SendContentLoop rd ch chunk mirror fuel st = .ok st1 ∧
        LoopShape ch chunk mirror st st1 ds none ∧ ds.flatten = remaining st.reader := by
  intro fuel
  induction fuel with
  | zero => intro st h; omega
  | succ fuel ih =>
    intro st hf
    have hp := hsrc.read_prefix chunk st.reader
    by_cases hd : (rd.ReadBytes chunk st.reader).1 = []
    · rw [SendContentLoop_step_exhausted rd ch chunk mirror fuel st hd]
      have hrem : remaining st.reader = [] := by
        by_contra hne
        exact hsrc.read_nonempty chunk st.reader hc hne hd
      exact ⟨_, [], rfl, LoopShape.exhausted ch chunk mirror st _, by rw [hrem]; rfl⟩
    · rw [SendContentLoop_step_sent rd ch chunk mirror fuel st hd (hw _)]
      have hlen : (remaining (rd.ReadBytes chunk st.reader).2).length <
          (remaining st.reader).length := by
        rw [← hp, List.length_append]
        have : 0 < (rd.ReadBytes chunk st.reader).1.length := List.length_pos.mpr hd
        omega
      obtain ⟨st1, ds, h1, hs, hfl⟩ := ih
        { reader := (rd.ReadBytes chunk st.reader).2, stream_writes := st.stream_writes + 1,
          status := st.status, requests_sent := wrapInt32 (st.requests_sent + 1),
          total_bytes_read :=
            wrapInt64 (st.total_bytes_read + (rd.ReadBytes chunk st.reader).1.length),
          trace := st.trace ++ sentEvents chunk mirror (rd.ReadBytes chunk st.reader).1 }
        (by simp only []; omega)
      refine ⟨st1, (rd.ReadBytes chunk st.reader).1 :: ds, h1,
        LoopShape.cons _ _ hd (hw _) hs, ?_⟩
      simp only [] at hfl
      rw [List.flatten_cons, hfl, hp]

theorem SendContentWith_inOrder {σ : Type} (rd : IOReader σ) (remaining : σ → Bytes)
    (chunk : Nat) (flags : Flags) (ch : Channel) (fuel : Nat) (r0 : σ) (w : Nat)
    (hsrc : InOrderSource rd remaining) (hc : 0 < chunk)
    (hr : flags.reader_open = true)
    (hv : flags.enable_local_storage_video = true → flags.video_writer_open = true)
    (hw : ∀ i, ch.write_ok i = true)
    (hf : (remaining r0).length < fuel) :
    ∃ res ds, SendContentWith chunk flags rd ch fuel r0 w = .ok res ∧
      SendShape ch chunk flags.enable_local_storage_video w res ds none ∧
      ds.flatten = remaining r0 := by
  obtain ⟨st1, ds, h1, hs, hfl⟩ := SendContentLoop_inOrder rd remaining ch chunk
    flags.enable_local_storage_video hsrc hc hw fuel (SendState.init r0 w) hf
  exact ⟨_, ds, SendContentWith_of_loop chunk flags rd ch fuel r0 w st1 hr hv h1,
    SendShape.of_loop hs, hfl⟩

theorem RunWith_config_failed {σ : Type} (chunk : Nat) (flags : Flags)
    (config_req : StreamingAnnotateVideoRequest) (rd : IOReader σ) (ch : Channel)
    (fuel : Nat) (r0 : σ) (h0 : ch.write_ok 0 = false) :
    RunWith chunk flags config_req rd ch fuel r0 =
      .ok { status := false, trace := [Event.Write config_req false],
            receiver := none, sender := none } := by
  simp [RunWith, SendConfig, h0]

theorem RunWith_config_sent {σ : Type} (chunk : Nat) (flags : Flags)
    (config_req : StreamingAnnotateVideoRequest) (rd : IOReader σ) (ch : Channel)
    (fuel : Nat) (r0 : σ) (recv : RecvState) (snd : SendResult σ)
    (h0 : ch.write_ok 0 = true)
    (hrecv : ReadResponse flags config_req.feature ch = .ok recv)
    (hsnd : SendContentWith chunk flags rd ch fuel r0 1 = .ok snd) :
    RunWith chunk flags config_req rd ch fuel r0 =
      .ok { status := (snd.status && ch.finish_ok),
            trace := Event.Write config_req true :: (snd.trace ++ [Event.Finish ch.finish_ok]),
            receiver := some recv, sender := some snd } := by
  cases hfin : ch.finish_ok <;> simp [RunWith, SendConfig, h0, hrecv, hsnd, hfin]

theorem RunWith_ok_inv {σ : Type} (chunk : Nat) (flags : Flags)
    (config_req : StreamingAnnotateVideoRequest) (rd : IOReader σ) (ch : Channel)
    (fuel : Nat) (r0 : σ) (r : RunResult σ)
    (h : RunWith chunk flags config_req rd ch fuel r0 = .ok r) :
    (ch.write_ok 0 = false ∧
      r = { status := false, trace := [Event.Write config_req false],
            receiver := none, sender := none }) ∨
    (ch.write_ok 0 = true ∧ ∃ recv snd,
      ReadResponse flags config_req.feature ch = .ok recv ∧
      SendContentWith chunk flags rd ch fuel r0 1 = .ok snd ∧
      r = { status := (snd.status && ch.finish_ok),
            trace := Event.Write config_req true :: (snd.trace ++ [Event.Finish ch.finish_ok]),
            receiver := some recv, sender := some snd }) := by
  cases h0 : ch.write_ok 0 with
  | false =>
    left
    rw [RunWith_config_failed chunk flags config_req rd ch fuel r0 h0] at h
    injection h with h
    exact ⟨rfl, h.symm⟩
  | true =>
    right
    refine ⟨rfl, ?_⟩
    cases hrecv : ReadResponse flags config_req.feature ch with
    | error e => simp [RunWith, SendConfig, h0, hrecv] at h
    | ok recv =>
      cases hsnd : SendContentWith chunk flags rd ch fuel r0 1 with
      | error e => simp [RunWith, SendConfig, h0, hrecv, hsnd] at h
      | ok snd =>
        rw [RunWith_config_sent chunk flags config_req rd ch fuel r0 recv snd h0 hrecv hsnd] at h
        injection h with h
        exact ⟨recv, snd, rfl, rfl, h.symm⟩

theorem contentPayloads_sent (chunk : Nat) (mirror : Bool) (ds : List Bytes) :
    contentPayloads (ds.flatMap (sentEvents chunk mirror)) = ds := by
  induction ds with
  | nil => rfl
  | cons d ds ih =>
    unfold contentPayloads at ih ⊢
    cases mirror <;>
      simp [sentEvents, List.filterMap_append, Event.contentPayload?, List.filterMap_cons] <;>
      simpa [sentEvents] using ih

theorem sentPayloads_sent (chunk : Nat) (mirror : Bool) (ds : List Bytes) :
    sentPayloads (ds.flatMap (sentEvents chunk mirror)) = ds := by
  induction ds with
  | nil => rfl
  | cons d ds ih =>
    unfold sentPayloads at ih ⊢
    cases mirror <;>
      simp [sentEvents, List.filterMap_append, Event.sentPayload?, List.filterMap_cons] <;>
      simpa [sentEvents] using ih

theorem mirroredBytes_sent (chunk : Nat) (mirror : Bool) (ds : List Bytes) :
    mirroredBytes (ds.flatMap (sentEvents chunk mirror)) = if mirror then ds else [] := by
  induction ds with
  | nil => cases mirror <;> rfl
  | cons d ds ih =>
    unfold mirroredBytes at ih ⊢
    cases mirror <;>
      simp [sentEvents, List.filterMap_append, Event.mirrored?, List.filterMap_cons] <;>
      simpa [sentEvents] using ih

theorem mem_sent_iff (chunk : Nat) (mirror : Bool) (ds : List Bytes) (e : Event) :
    e ∈ ds.flatMap (sentEvents chunk mirror) ↔
      ∃ d ∈ ds, e = Event.ReadBytes chunk d ∨ e = Event.Write (.input_content d) true ∨
        (mirror = true ∧ e = Event.WriteBytes d) := by
  cases mirror <;> simp [List.mem_flatMap, sentEvents]

theorem sentPayloads_append (a b : List Event) :
    sentPayloads (a ++ b) = sentPayloads a ++ sentPayloads b := by
  simp [sentPayloads, List.filterMap_append]

theorem contentPayloads_append (a b : List Event) :
    contentPayloads (a ++ b) = contentPayloads a ++ contentPayloads b := by
  simp [contentPayloads, List.filterMap_append]

theorem mirroredBytes_append (a b : List Event) :
    mirroredBytes (a ++ b) = mirroredBytes a ++ mirroredBytes b := by
  simp [mirroredBytes, List.filterMap_append]

theorem sentPayloads_close (ch : Channel) (mirror : Bool) :
    sentPayloads (closeEvents ch mirror) = [] := by
  cases mirror <;> simp [sentPayloads, closeEvents, Event.sentPayload?]

theorem contentPayloads_close (ch : Channel) (mirror : Bool) :
    contentPayloads (closeEvents ch mirror) = [] := by
  cases mirror <;> simp [contentPayloads, closeEvents, Event.contentPayload?]

theorem mirroredBytes_close (ch : Channel) (mirror : Bool) :
    mirroredBytes (closeEvents ch mirror) = [] := by
  cases mirror <;> simp [mirroredBytes, closeEvents, Event.mirrored?]

theorem sentPayloads_end (chunk : Nat) (failed : Option Bytes) :
    sentPayloads (endEvents chunk failed) = [] := by
  cases failed <;> simp [sentPayloads, endEvents, Event.sentPayload?]

theorem mirroredBytes_end (chunk : Nat) (failed : Option Bytes) :
    mirroredBytes (endEvents chunk failed) = [] := by
  cases failed <;> simp [mirroredBytes, endEvents, Event.mirrored?]

theorem contentPayloads_end (chunk : Nat) (failed : Option Bytes) :
    contentPayloads (endEvents chunk failed) = failed.toList := by
  cases failed <;> simp [contentPayloads, endEvents, Event.contentPayload?]

theorem SendShape.sentPayloads_eq {σ : Type} {ch : Channel} {chunk : Nat} {mirror : Bool}
    {w : Nat} {res : SendResult σ} {ds : List Bytes} {failed : Option Bytes}
    (hs : SendShape ch chunk mirror w res ds failed) : sentPayloads res.trace = ds := by
  rw [hs.trace_eq]
  simp [sentPayloads_append, sentPayloads_sent, sentPayloads_end, sentPayloads_close]

theorem SendShape.contentPayloads_eq {σ : Type} {ch : Channel} {chunk : Nat} {mirror : Bool}
    {w : Nat} {res : SendResult σ} {ds : List Bytes} {failed : Option Bytes}
    (hs : SendShape ch chunk mirror w res ds failed) :
    contentPayloads res.trace = ds ++ failed.toList := by
  rw [hs.trace_eq]
  simp [contentPayloads_append, contentPayloads_sent, contentPayloads_end,
    contentPayloads_close]

theorem SendShape.mirroredBytes_eq {σ : Type} {ch : Channel} {chunk : Nat} {mirror : Bool}
    {w : Nat} {res : SendResult σ} {ds : List Bytes} {failed : Option Bytes}
    (hs : SendShape ch chunk mirror w res ds failed) :
    mirroredBytes res.trace = if mirror then ds else [] := by
  rw [hs.trace_eq]
  simp [mirroredBytes_append, mirroredBytes_sent, mirroredBytes_end, mirroredBytes_close]

theorem chunks_index_lt (c : Nat) (hc : 0 < c) (l : Bytes) (i : Nat)
    (hi : i < (chunks c l).length) : i * c < l.length := by
  rw [chunks_length c hc l] at hi
  have h1 : (i + 1) * c ≤ l.length + c - 1 := (Nat.le_div_iff_mul_le hc).mp hi
  rw [Nat.add_mul] at h1
  omega

theorem chunks_getElem_full (c : Nat) (hc : 0 < c) (l : Bytes) (i : Nat)
    (h : i < (chunks c l).length) (hi : i + 1 < (chunks c l).length) :
    ((chunks c l)[i]).length = c := by
  have h1 := chunks_index_lt c hc l (i + 1) hi
  rw [chunks_getElem_length]
  rw [Nat.add_mul] at h1
  omega

theorem Flags.opens_ok_iff (flags : Flags) :
    flags.opens_ok = true ↔
      flags.reader_open = true ∧
      (flags.enable_local_storage_video = true → flags.video_writer_open = true) ∧
      (flags.enable_local_storage_annotation_result = true → flags.proto_writer_open = true) := by
  unfold Flags.opens_ok
  cases flags.reader_open <;> cases flags.enable_local_storage_video <;>
    cases flags.video_writer_open <;> cases flags.enable_local_storage_annotation_result <;>
    cases flags.proto_writer_open <;> simp

/-- On a finite in-order source `Run` returns, whatever the channel does, once
the fuel exceeds the number of chunks. -/
theorem RunWith_file_terminates (chunk : Nat) (flags : Flags)
    (config_req : StreamingAnnotateVideoRequest) (ch : Channel) (fuel : Nat) (input : Bytes)
    (hc : 0 < chunk) (ho : flags.opens_ok = true)
    (hf : (input.length + chunk - 1) / chunk < fuel) :
    ∃ r, RunWith chunk flags config_req FileReader ch fuel input = .ok r := by
  obtain ⟨hr, hv, hp⟩ := (Flags.opens_ok_iff flags).mp ho
  cases h0 : ch.write_ok 0 with
  | false => exact ⟨_, RunWith_config_failed chunk flags config_req FileReader ch fuel input h0⟩
  | true =>
    obtain ⟨snd, hsnd⟩ := SendContentWith_file_terminates chunk flags ch fuel input 1 hr hv
      (by rw [chunks_length chunk hc]; exact hf)
    exact ⟨_, RunWith_config_sent chunk flags config_req FileReader ch fuel input _ snd h0
      (ReadResponse_eq flags config_req.feature ch hp) hsnd⟩

/-- The trace of a returning execution of `Run` in which the configuration
write succeeded. -/
theorem RunWith_trace_sent {σ : Type} (chunk : Nat) (flags : Flags)
    (config_req : StreamingAnnotateVideoRequest) (rd : IOReader σ) (ch : Channel)
    (fuel : Nat) (r0 : σ) (r : RunResult σ)
    (h : RunWith chunk flags config_req rd ch fuel r0 = .ok r) (h0 : ch.write_ok 0 = true) :
    ∃ snd ds failed, r.sender = some snd ∧
      SendShape ch chunk flags.enable_local_storage_video 1 snd ds failed ∧
      r.status = (snd.status && ch.finish_ok) ∧
      r.trace = Event.Write config_req true :: (snd.trace ++ [Event.Finish ch.finish_ok]) := by
  rcases RunWith_ok_inv chunk flags config_req rd ch fuel r0 r h with ⟨hf, _⟩ | ⟨_, recv, snd, _, hsnd, rfl⟩
  · rw [h0] at hf; cases hf
  · obtain ⟨ds, failed, hs⟩ := SendContentWith_shape chunk flags rd ch fuel r0 1 snd hsnd
    exact ⟨snd, ds, failed, rfl, hs, rfl, rfl⟩

theorem RunWith_trace_failed {σ : Type} (chunk : Nat) (flags : Flags)
    (config_req : StreamingAnnotateVideoRequest) (rd : IOReader σ) (ch : Channel)
    (fuel : Nat) (r0 : σ) (r : RunResult σ)
    (h : RunWith chunk flags config_req rd ch fuel r0 = .ok r) (h0 : ch.write_ok 0 = false) :
    r.status = false ∧ r.trace = [Event.Write config_req false] ∧ r.sender = none ∧
      r.receiver = none := by
  rw [RunWith_config_failed chunk flags config_req rd ch fuel r0 h0] at h
  injection h with h
  subst h
  exact ⟨rfl, rfl, rfl, rfl⟩

theorem SendShape.mem_trace_iff {σ : Type} {ch : Channel} {chunk : Nat} {mirror : Bool}
    {w : Nat} {res : SendResult σ} {ds : List Bytes} {failed : Option Bytes}
    (hs : SendShape ch chunk mirror w res ds failed) (e : Event) :
    e ∈ res.trace ↔
      (∃ d ∈ ds, e = Event.ReadBytes chunk d ∨ e = Event.Write (.input_content d) true ∨
        (mirror = true ∧ e = Event.WriteBytes d)) ∨
      e ∈ endEvents chunk failed ∨ e ∈ closeEvents ch mirror := by
  rw [hs.trace_eq, List.mem_append, List.mem_append, mem_sent_iff, or_assoc]

theorem SendShape.failed_write_mem_iff {σ : Type} {ch : Channel} {chunk : Nat} {mirror : Bool}
    {w : Nat} {res : SendResult σ} {ds : List Bytes} {failed : Option Bytes}
    (hs : SendShape ch chunk mirror w res ds failed) (d : Bytes) :
    Event.Write (.input_content d) false ∈ res.trace ↔ failed = some d := by
  rw [hs.mem_trace_iff]
  cases failed <;> cases mirror <;> simp [endEvents, closeEvents, eq_comm]

theorem SendShape.writesDone_mem_iff {σ : Type} {ch : Channel} {chunk : Nat} {mirror : Bool}
    {w : Nat} {res : SendResult σ} {ds : List Bytes} {failed : Option Bytes}
    (hs : SendShape ch chunk mirror w res ds failed) (b : Bool) :
    Event.WritesDone b ∈ res.trace ↔ b = ch.writes_done_ok := by
  rw [hs.mem_trace_iff]
  cases failed <;> cases mirror <;> simp [endEvents, closeEvents]

theorem SendShape.finish_not_mem {σ : Type} {ch : Channel} {chunk : Nat} {mirror : Bool}
    {w : Nat} {res : SendResult σ} {ds : List Bytes} {failed : Option Bytes}
    (hs : SendShape ch chunk mirror w res ds failed) (b : Bool) :
    Event.Finish b ∉ res.trace := by
  rw [hs.mem_trace_iff]
  cases failed <;> cases mirror <;> simp [endEvents, closeEvents]

theorem filter_sent_eq_nil (chunk : Nat) (mirror : Bool) (ds : List Bytes) (p : Event → Bool)
    (h1 : ∀ d, p (Event.ReadBytes chunk d) = false)
    (h2 : ∀ d, p (Event.Write (.input_content d) true) = false)
    (h3 : ∀ d, p (Event.WriteBytes d) = false) :
    (ds.flatMap (sentEvents chunk mirror)).filter p = [] := by
  rw [List.filter_eq_nil_iff]
  intro e he
  rw [mem_sent_iff] at he
  obtain ⟨d, _, he | he | ⟨_, he⟩⟩ := he <;> simp [he, h1, h2, h3]

/-! ## The claims -/

/-- C1. For every execution of `Run` that returns, with any byte source, `Run`
returns true if and only if the configuration write succeeded, no Content
write failed, `WritesDone` succeeded and `Finish` gave an OK status; a non-OK
final status makes it return false.  On a finite in-order source, with the
opens succeeding, `Run` does return once the fuel exceeds the number of
chunks. -/
theorem C1_run_status :
    (∀ (σ : Type) (chunk : Nat) (flags : Flags) (config_req : StreamingAnnotateVideoRequest)
        (rd : IOReader σ) (ch : Channel) (fuel : Nat) (r0 : σ) (r : RunResult σ),
      RunWith chunk flags config_req rd ch fuel r0 = .ok r →
        (r.status = true ↔
          (r.trace.head? = some (Event.Write config_req true) ∧
           (∀ d, Event.Write (.input_content d) false ∉ r.trace.tail) ∧
           Event.WritesDone true ∈ r.trace ∧ Event.Finish true ∈ r.trace)) ∧
        (Event.Finish false ∈ r.trace → r.status = false)) ∧
    (∀ (chunk : Nat) (flags : Flags) (config_req : StreamingAnnotateVideoRequest)
        (ch : Channel) (fuel : Nat) (input : Bytes),
      0 < chunk → flags.opens_ok = true → (input.length + chunk - 1) / chunk < fuel →
        ∃ r, RunWith chunk flags config_req FileReader ch fuel input = .ok r) := by
  refine ⟨?_, fun chunk flags config_req ch fuel input hc ho hf =>
    RunWith_file_terminates chunk flags config_req ch fuel input hc ho hf⟩
  intro σ chunk flags config_req rd ch fuel r0 r h
  cases h0 : ch.write_ok 0 with
  | false =>
    obtain ⟨hs, ht, _, _⟩ := RunWith_trace_failed chunk flags config_req rd ch fuel r0 r h h0
    simp [hs, ht]
  | true =>
    obtain ⟨snd, ds, failed, _, hs, hst, ht⟩ :=
      RunWith_trace_sent chunk flags config_req rd ch fuel r0 r h h0
    have hfw := hs.failed_write_mem_iff
    have hwd := hs.writesDone_mem_iff true
    have hfn := hs.finish_not_mem
    rw [hst, ht, hs.status_eq]
    simp only [List.head?_cons, List.tail_cons, List.mem_cons, List.mem_append, hfw, hwd, hfn,
      List.mem_singleton, Event.Finish.injEq, false_or, or_false, reduceCtorEq, true_and,
      Bool.and_eq_true, List.not_mem_nil]
    constructor
    · constructor
      · rintro ⟨⟨h1, h2⟩, h3⟩
        refine ⟨?_, h2.symm, h3.symm⟩
        intro d hd
        rw [hd] at h1; simp at h1
      · rintro ⟨h1, h2, h3⟩
        refine ⟨⟨?_, h2.symm⟩, h3.symm⟩
        cases failed with
        | none => rfl
        | some d => exact absurd rfl (h1 d)
    · intro hf
      rw [← hf]; simp

/-- Instances of C1: a run whose five chunks are all sent returns false when the
final status is not OK, and true when every call succeeds. -/
theorem C1_run_status_witness :
    (∃ r, RunWith 2 demoFlags demoConfig FileReader channelFinishFails 6 demoInput = .ok r ∧
      (sentPayloads r.trace).length = 5 ∧ r.status = false) ∧
    (∃ r, RunWith 2 demoFlags demoConfig FileReader channelOk 6 demoInput = .ok r ∧
      r.status = true ∧ Event.WritesDone true ∈ r.trace ∧ Event.Finish true ∈ r.trace) :=
  ⟨⟨_, rfl, rfl,
      (C1_run_status.1 Bytes 2 demoFlags demoConfig FileReader channelFinishFails 6 demoInput _
        rfl).2 (by decide)⟩,
    ⟨_, rfl, rfl,
      ((C1_run_status.1 Bytes 2 demoFlags demoConfig FileReader channelOk 6 demoInput _
        rfl).1.mp rfl).2.2⟩⟩

/-- C2. On a finite in-order source of `L` bytes read in chunks of `C > 0`
bytes, with every channel write succeeding, `SendContent` returns having
written exactly `⌈L / C⌉` Content messages, all successfully; message `i` has
`min C (L - i * C)` bytes, so each has at most `C` bytes and only the last may
be shorter; their payloads concatenated in write order are the input. -/
theorem C2_chunking (chunk : Nat) (flags : Flags) (ch : Channel) (fuel : Nat) (input : Bytes)
    (w : Nat) (hc : 0 < chunk) (hr : flags.reader_open = true)
    (hv : flags.enable_local_storage_video = true → flags.video_writer_open = true)
    (hw : ∀ i, ch.write_ok i = true)
    (hf : (input.length + chunk - 1) / chunk < fuel) :
    ∃ res, SendContentWith chunk flags FileReader ch fuel input w = .ok res ∧
      sentPayloads res.trace = contentPayloads res.trace ∧
      (contentPayloads res.trace).length = (input.length + chunk - 1) / chunk ∧
      (∀ (i : Nat) (h : i < (contentPayloads res.trace).length),
        ((contentPayloads res.trace)[i]).length = min chunk (input.length - i * chunk)) ∧
      (∀ d ∈ contentPayloads res.trace, d.length ≤ chunk) ∧
      (∀ (i : Nat) (h : i < (contentPayloads res.trace).length),
        i + 1 < (contentPayloads res.trace).length →
          ((contentPayloads res.trace)[i]).length = chunk) ∧
      (contentPayloads res.trace).flatten = input := by
  obtain ⟨res, hres, hs⟩ := SendContentWith_file_all chunk flags ch fuel input w hr hv
    (by rw [chunks_length chunk hc]; exact hf) (fun i _ => hw (w + i))
  have hcp : contentPayloads res.trace = chunks chunk input := by
    rw [hs.contentPayloads_eq]; simp
  refine ⟨res, hres, ?_, ?_, ?_, ?_, ?_, ?_⟩
  · rw [hs.sentPayloads_eq, hcp]
  · rw [hcp, chunks_length chunk hc]
  · rw [hcp]; exact fun i h => chunks_getElem_length chunk input i h
  · rw [hcp]
    intro d hd
    obtain ⟨i, hi, rfl⟩ := List.getElem_of_mem hd
    rw [chunks_getElem_length]
    exact Nat.min_le_left _ _
  · rw [hcp]; exact fun i h hi => chunks_getElem_full chunk hc input i h hi
  · rw [hcp]; exact chunks_flatten chunk hc input

/-- Instances of C2: five bytes in chunks of two, and the 2.5 MiB scenario at
`kDataChunk`, which gives messages of 1,048,576, 1,048,576 and 524,288 bytes. -/
theorem C2_chunking_witness :
    (∃ res, SendContentWith 2 demoFlags FileReader channelOk 4 [1, 2, 3, 4, 5] 1 = .ok res ∧
      (contentPayloads res.trace).length = 3 ∧
      (contentPayloads res.trace).flatten = [1, 2, 3, 4, 5]) ∧
    (∃ res, SendContent demoFlags FileReader channelOk 4 (List.replicate 2621440 0) 1 = .ok res ∧
      (contentPayloads res.trace).map List.length = [1048576, 1048576, 524288]) := by
  constructor
  · obtain ⟨res, h, _, hl, _, _, _, hfl⟩ :=
      C2_chunking 2 demoFlags channelOk 4 [1, 2, 3, 4, 5] 1 (by decide) rfl (fun _ => rfl)
        (fun _ => rfl) (by decide)
    exact ⟨res, h, hl, hfl⟩
  · obtain ⟨res, h, _, hl, hlen, _, _, _⟩ :=
      C2_chunking kDataChunk demoFlags channelOk 4 (List.replicate 2621440 0) 1 (by decide) rfl
        (fun _ => rfl) (fun _ => rfl) (by rw [List.length_replicate]; decide)
    rw [List.length_replicate] at hl
    have h3 : (contentPayloads res.trace).length = 3 := by rw [hl]; decide
    refine ⟨res, h, ?_⟩
    apply List.ext_getElem
    · simp [h3]
    · intro i h1 h2
      have hi : i < 3 := by simpa using h2
      have hi2 : i < (contentPayloads res.trace).length := by omega
      rw [List.getElem_map, hlen i hi2, List.length_replicate]
      interval_cases i <;> simp [kDataChunk]

/-- C3. In every execution of `Run` that returns, the first call on the
channel is the `Write` of the Configuration message; every later `Write`
carries a non-empty Content payload that was just read from the byte source,
so no later `Write` carries a Configuration message and exactly one
Configuration message is written.  On a finite in-order source, with the
opens succeeding, `Run` does return once the fuel exceeds the number of
chunks. -/
theorem C3_config_first_and_once :
    (∀ (σ : Type) (chunk : Nat) (flags : Flags) (config_req : StreamingAnnotateVideoRequest)
        (rd : IOReader σ) (ch : Channel) (fuel : Nat) (r0 : σ) (r : RunResult σ),
      RunWith chunk flags config_req rd ch fuel r0 = .ok r →
        ∃ rest, r.trace = Event.Write config_req (ch.write_ok 0) :: rest ∧
          (∀ req ok, Event.Write req ok ∈ rest →
            ∃ d, d ≠ [] ∧ req = .input_content d ∧ Event.ReadBytes chunk d ∈ rest) ∧
          rest.filter Event.isConfigWrite = [] ∧
          (∀ c, config_req = .video_config c →
            (r.trace.filter Event.isConfigWrite).length = 1)) ∧
    (∀ (chunk : Nat) (flags : Flags) (config_req : StreamingAnnotateVideoRequest)
        (ch : Channel) (fuel : Nat) (input : Bytes),
      0 < chunk → flags.opens_ok = true → (input.length + chunk - 1) / chunk < fuel →
        ∃ r, RunWith chunk flags config_req FileReader ch fuel input = .ok r) := by
  refine ⟨?_, fun chunk flags config_req ch fuel input hc ho hf =>
    RunWith_file_terminates chunk flags config_req ch fuel input hc ho hf⟩
  intro σ chunk flags config_req rd ch fuel r0 r h
  cases h0 : ch.write_ok 0 with
  | false =>
    obtain ⟨_, ht, _, _⟩ := RunWith_trace_failed chunk flags config_req rd ch fuel r0 r h h0
    refine ⟨[], ht, ?_, rfl, ?_⟩
    · intro req ok hmem; simp at hmem
    · intro c hcfg; rw [ht, hcfg]; simp [Event.isConfigWrite]
  | true =>
    obtain ⟨snd, ds, failed, _, hs, _, ht⟩ :=
      RunWith_trace_sent chunk flags config_req rd ch fuel r0 r h h0
    have hwrites : ∀ req ok, Event.Write req ok ∈ snd.trace ++ [Event.Finish ch.finish_ok] →
        ∃ d, d ≠ [] ∧ req = .input_content d ∧
          Event.ReadBytes chunk d ∈ snd.trace ++ [Event.Finish ch.finish_ok] := by
      intro req ok hmem
      rw [List.mem_append] at hmem
      rcases hmem with hmem | hmem
      · rw [hs.mem_trace_iff] at hmem
        rcases hmem with ⟨d, hd, he | he | ⟨_, he⟩⟩ | hmem | hmem
        · cases he
        · injection he with he1 he2
          refine ⟨d, hs.nonempty d hd, he1, ?_⟩
          rw [List.mem_append, hs.mem_trace_iff]
          exact Or.inl (Or.inl ⟨d, hd, Or.inl rfl⟩)
        · cases he
        · cases failed with
          | none => simp [endEvents] at hmem
          | some d =>
            simp only [endEvents, List.mem_cons, reduceCtorEq, List.mem_singleton,
              Event.Write.injEq, false_or, List.not_mem_nil, or_false] at hmem
            refine ⟨d, hs.failed_nonempty d rfl, hmem.1, ?_⟩
            rw [List.mem_append, hs.mem_trace_iff]
            exact Or.inl (Or.inr (Or.inl (by simp [endEvents])))
        · cases flags.enable_local_storage_video <;> simp [closeEvents] at hmem
      · simp at hmem
    have hnil : (snd.trace ++ [Event.Finish ch.finish_ok]).filter Event.isConfigWrite = [] := by
      rw [List.filter_eq_nil_iff]
      intro e he
      cases e with
      | Write req ok =>
        obtain ⟨d, _, hreq, _⟩ := hwrites req ok he
        rw [hreq]; simp [Event.isConfigWrite]
      | _ => simp [Event.isConfigWrite]
    refine ⟨snd.trace ++ [Event.Finish ch.finish_ok], ht, hwrites, hnil, ?_⟩
    intro c hcfg
    rw [ht, hcfg, List.filter_cons]
    simp only [Event.isConfigWrite, if_true]
    rw [hnil]; rfl

/-- Instance of C3: a run whose second Content write fails. -/
theorem C3_config_first_and_once_witness :
    ∃ r, RunWith 2 demoFlags demoConfig FileReader channelSecondChunkFails 6 demoInput = .ok r ∧
      r.trace.head? = some (Event.Write demoConfig true) ∧
      (r.trace.filter Event.isConfigWrite).length = 1 := by
  obtain ⟨rest, ht, _, _, h1⟩ :=
    C3_config_first_and_once.1 Bytes 2 demoFlags demoConfig FileReader channelSecondChunkFails 6
      demoInput _ rfl
  exact ⟨_, rfl, rfl, h1 _ rfl⟩

/-- C4 (amended). In every execution of `Run` that returns and in which the
Configuration write succeeded, whatever the outcome of each Content write,
`WritesDone` is called exactly once and no `Write` follows it; when the
Configuration write fails, `Run` returns false before `SendContent` and
`WritesDone` is never called.  On a finite in-order source, with the opens succeeding,
`Run` does return once the fuel exceeds the number of chunks. -/
theorem C4_half_close_once :
    (∀ (σ : Type) (chunk : Nat) (flags : Flags) (config_req : StreamingAnnotateVideoRequest)
        (rd : IOReader σ) (ch : Channel) (fuel : Nat) (r0 : σ) (r : RunResult σ),
      RunWith chunk flags config_req rd ch fuel r0 = .ok r →
        (ch.write_ok 0 = true →
          (r.trace.filter Event.isWritesDone).length = 1 ∧
          ∃ pre post, r.trace = pre ++ Event.WritesDone ch.writes_done_ok :: post ∧
            post.filter Event.isWrite = []) ∧
        (ch.write_ok 0 = false →
          r.status = false ∧ r.sender = none ∧ r.trace.filter Event.isWritesDone = [])) ∧
    (∀ (chunk : Nat) (flags : Flags) (config_req : StreamingAnnotateVideoRequest)
        (ch : Channel) (fuel : Nat) (input : Bytes),
      0 < chunk → flags.opens_ok = true → (input.length + chunk - 1) / chunk < fuel →
        ∃ r, RunWith chunk flags config_req FileReader ch fuel input = .ok r) := by
  refine ⟨?_, fun chunk flags config_req ch fuel input hc ho hf =>
    RunWith_file_terminates chunk flags config_req ch fuel input hc ho hf⟩
  intro σ chunk flags config_req rd ch fuel r0 r h
  constructor
  · intro h0
    obtain ⟨snd, ds, failed, _, hs, _, ht⟩ :=
      RunWith_trace_sent chunk flags config_req rd ch fuel r0 r h h0
    have hsent := filter_sent_eq_nil chunk flags.enable_local_storage_video ds
      Event.isWritesDone (fun _ => rfl) (fun _ => rfl) (fun _ => rfl)
    constructor
    · rw [ht, hs.trace_eq]
      simp only [List.filter_cons, List.filter_append, hsent, Event.isWritesDone]
      cases failed <;> cases flags.enable_local_storage_video <;>
        simp [endEvents, closeEvents, Event.isWritesDone]
    · refine ⟨Event.Write config_req true ::
          (ds.flatMap (sentEvents chunk flags.enable_local_storage_video) ++
            endEvents chunk failed),
        Event.ReaderClose ::
          ((if flags.enable_local_storage_video then [Event.WriterClose] else []) ++
            [Event.Finish ch.finish_ok]), ?_, ?_⟩
      · rw [ht, hs.trace_eq]; simp [closeEvents, List.append_assoc]
      · cases flags.enable_local_storage_video <;> simp [Event.isWrite]
  · intro h0
    obtain ⟨hst, ht, hsn, _⟩ := RunWith_trace_failed chunk flags config_req rd ch fuel r0 r h h0
    refine ⟨hst, hsn, ?_⟩
    rw [ht]; simp [Event.isWritesDone]

/-- Counterexample to C4 as stated: every open would succeed, the Configuration
write fails, `Run` returns and `WritesDone` has been called zero times. -/
theorem C4_counterexample :
    demoFlags.opens_ok = true ∧
    ∃ r, Run demoFlags demoConfig FileReader channelConfigFails 6 demoInput = .ok r ∧
      (r.trace.filter Event.isWritesDone).length = 0 :=
  ⟨rfl, _, rfl, rfl⟩

/-- Instance of C4 (amended): a run whose second Content write fails calls
`WritesDone` once. -/
theorem C4_half_close_once_witness :
    ∃ r, RunWith 2 demoFlags demoConfig FileReader channelSecondChunkFails 6 demoInput = .ok r ∧
      r.status = false ∧ (r.trace.filter Event.isWritesDone).length = 1 :=
  ⟨_, rfl, rfl,
    ((C4_half_close_once.1 Bytes 2 demoFlags demoConfig FileReader channelSecondChunkFails 6
      demoInput _ rfl).1 rfl).1⟩

/-- C5. On a finite in-order source of `n = ⌈L / C⌉` chunks, if the write of
the `k`-th Content chunk (`1 ≤ k ≤ n`) is the first to fail, then `Run` returns
and exactly the first `k - 1` chunks were sent, in order (the `int` counter
`requests_sent` holds `k - 1` reduced to its range); after the failed write the
byte source is not read and nothing is written, `WritesDone` is still called,
`SendContent` returns false and `Run` returns false. -/
theorem C5_first_write_failure (chunk : Nat) (flags : Flags)
    (config_req : StreamingAnnotateVideoRequest) (ch : Channel) (fuel : Nat) (input : Bytes)
    (k : Nat) (hc : 0 < chunk) (ho : flags.opens_ok = true)
    (hk1 : 1 ≤ k) (hkn : k ≤ (input.length + chunk - 1) / chunk)
    (h0 : ch.write_ok 0 = true)
    (hok : ∀ j, 1 ≤ j → j < k → ch.write_ok j = true)
    (hfail : ch.write_ok k = false)
    (hf : k ≤ fuel) :
    ∃ r snd, RunWith chunk flags config_req FileReader ch fuel input = .ok r ∧
      r.sender = some snd ∧
      (sentPayloads snd.trace).length = k - 1 ∧
      (∀ d ∈ sentPayloads snd.trace, d.length = chunk) ∧
      (sentPayloads snd.trace).flatten = input.take ((k - 1) * chunk) ∧
      snd.requests_sent = wrapInt32 ((k - 1 : Nat) : Int) ∧
      (∃ pre d post, snd.trace = pre ++ Event.Write (.input_content d) false :: post ∧
        post.filter Event.isReadBytes = [] ∧ post.filter Event.isWrite = [] ∧
        Event.WritesDone ch.writes_done_ok ∈ post) ∧
      snd.status = false ∧ r.status = false := by
  obtain ⟨hr, hv, hp⟩ := (Flags.opens_ok_iff flags).mp ho
  have hn : (chunks chunk input).length = (input.length + chunk - 1) / chunk :=
    chunks_length chunk hc input
  have hk : k - 1 < (chunks chunk input).length := by omega
  obtain ⟨snd, hsnd, hs⟩ := SendContentWith_file_fail chunk flags ch fuel input 1 (k - 1) hr hv
    hk (by omega) (fun i hi => hok (1 + i) (by omega) (by omega))
    (by rw [← hfail]; congr 1; omega)
  have hsp := hs.sentPayloads_eq
  refine ⟨_, snd, RunWith_config_sent chunk flags config_req FileReader ch fuel input _ snd h0
    (ReadResponse_eq flags config_req.feature ch hp) hsnd, rfl, ?_, ?_, ?_, ?_, ?_, ?_, ?_⟩
  · rw [hsp, List.length_take]; omega
  · rw [hsp]
    intro d hd
    obtain ⟨i, hi, rfl⟩ := List.getElem_of_mem hd
    rw [List.length_take] at hi
    rw [List.getElem_take]
    exact chunks_getElem_full chunk hc input i (by omega) (by omega)
  · rw [hsp]; exact chunks_take_flatten chunk (k - 1) input (by omega)
  · rw [hs.requests_sent_eq, List.length_take, Nat.min_eq_left (by omega)]
  · refine ⟨((chunks chunk input).take (k - 1)).flatMap
        (sentEvents chunk flags.enable_local_storage_video) ++
        [Event.ReadBytes chunk ((chunks chunk input)[k - 1])],
      (chunks chunk input)[k - 1], closeEvents ch flags.enable_local_storage_video, ?_, ?_, ?_, ?_⟩
    · rw [hs.trace_eq]; simp [endEvents, List.append_assoc]
    · cases flags.enable_local_storage_video <;> simp [closeEvents, Event.isReadBytes]
    · cases flags.enable_local_storage_video <;> simp [closeEvents, Event.isWrite]
    · cases flags.enable_local_storage_video <;> simp [closeEvents]
  · rw [hs.status_eq]; rfl
  · simp [hs.status_eq]

/-- Instance of C5 with `n = 5` chunks and `k = 2`: exactly one chunk is sent. -/
theorem C5_first_write_failure_witness :
    (2 ≤ (demoInput.length + 2 - 1) / 2 ∧ (demoInput.length + 2 - 1) / 2 = 5) ∧
    ∃ r snd, RunWith 2 demoFlags demoConfig FileReader channelSecondChunkFails 2 demoInput
        = .ok r ∧ r.sender = some snd ∧
      (sentPayloads snd.trace).length = 1 ∧ snd.requests_sent = 1 ∧
      (sentPayloads snd.trace).flatten = [0, 1] ∧
      snd.status = false ∧ r.status = false := by
  refine ⟨by decide, ?_⟩
  obtain ⟨r, snd, h, hs, h1, _, h2, h3, _, h4, h5⟩ :=
    C5_first_write_failure 2 demoFlags demoConfig channelSecondChunkFails 2 demoInput 2
      (by decide) rfl (by decide) (by decide) rfl
      (fun j hj1 hj2 => by
        have : j = 1 := by omega
        subst this; rfl)
      rfl (by decide)
  exact ⟨r, snd, h, hs, h1, h3.trans (by decide), h2, h4, h5⟩

/-- C6. With the result mirror enabled and opened, `ReadResponse` returns and
the records it wrote to the mirror are, in arrival order, the
`annotation_results` of exactly the received responses without an in-band
error. -/
theorem C6_result_mirror (flags : Flags) (feature : Nat) (ch : Channel)
    (hm : flags.local_storage_annotation_result ≠ "")
    (ho : flags.proto_writer_open = true) :
    ∃ st, ReadResponse flags feature ch = .ok st ∧
      persisted st.trace =
        (ch.incoming.filter fun resp => !resp.has_error).map fun resp =>
          resp.annotation_results := by
  have hen : flags.enable_local_storage_annotation_result = true := by
    simp [Flags.enable_local_storage_annotation_result, hm]
  refine ⟨_, ReadResponse_eq flags feature ch (fun _ => ho), ?_⟩
  rw [hen]
  simp only [persisted, List.filterMap_append, if_true]
  generalize ch.incoming = l
  induction l with
  | nil => simp
  | cons resp rest ih =>
    simp only [List.flatMap_cons, List.filterMap_append] at ih ⊢
    by_cases he : resp.has_error = true
    · simpa [respEvents, he, List.filter_cons] using ih
    · simpa [respEvents, he, List.filter_cons] using ih

/-- Instance of C6: of three responses the second has an in-band error and is
not persisted. -/
theorem C6_result_mirror_witness :
    ∃ st, ReadResponse demoFlags 1 channelOk = .ok st ∧
      persisted st.trace = [{ payload := 10 }, { payload := 30 }] :=
  C6_result_mirror demoFlags 1 channelOk (by decide) rfl

/-- C7 (amended). Whenever the result mirror is disabled or opens,
`ReadResponse` returns and has passed every delivered response to
`ProtoProcessor::Process`, in arrival order and whether or not it has an
in-band error, so the number of dispatches equals the number of responses
delivered.  The reported total is that number reduced to the range of the
32-bit `int total_responses_received`; it equals the number of responses
delivered whenever fewer than `2 ^ 31` are delivered. -/
theorem C7_dispatch_all (flags : Flags) (feature : Nat) (ch : Channel)
    (ho : flags.local_storage_annotation_result ≠ "" → flags.proto_writer_open = true) :
    ∃ st, ReadResponse flags feature ch = .ok st ∧
      processed st.trace = ch.incoming.map (fun resp => (feature, resp.annotation_results)) ∧
      (processed st.trace).length = ch.incoming.length ∧
      st.total_responses_received = wrapInt32 ((ch.incoming.length : Nat) : Int) ∧
      (ch.incoming.length < 2147483648 →
        st.total_responses_received = ((ch.incoming.length : Nat) : Int)) := by
  have hen : flags.enable_local_storage_annotation_result = true →
      flags.proto_writer_open = true := by
    intro h
    apply ho
    simpa [Flags.enable_local_storage_annotation_result] using h
  obtain ⟨st, hst, hp, ht⟩ := ReadResponse_spec flags feature ch hen
  refine ⟨st, hst, hp, ?_, ht, ?_⟩
  · rw [hp, List.length_map]
  · intro hlt
    rw [ht, wrapInt32_of_lt _ hlt]

/-- Instance of C7: all three responses are dispatched, the errored one
included, and the reported total is 3. -/
theorem C7_dispatch_all_witness :
    ∃ st, ReadResponse demoFlags 1 channelOk = .ok st ∧
      processed st.trace = [(1, { payload := 10 }), (1, { payload := 20 }), (1, { payload := 30 })] ∧
      (processed st.trace).length = 3 ∧
      st.total_responses_received = 3 := by
  obtain ⟨st, h, h1, h2, _, h4⟩ := C7_dispatch_all demoFlags 1 channelOk (fun _ => rfl)
  exact ⟨st, h, h1, h2, h4 (by decide)⟩

/-- Counterexample to C7 as stated: when the channel delivers `2 ^ 31`
responses, all of them are dispatched and the reported total is `-2 ^ 31`. -/
theorem C7_counterexample :
    ∃ st, ReadResponse demoFlags 1 channelManyResponses = .ok st ∧
      (processed st.trace).length = 2147483648 ∧
      st.total_responses_received = -2147483648 := by
  obtain ⟨st, hst, hp, ht⟩ := ReadResponse_spec demoFlags 1 channelManyResponses (fun _ => rfl)
  have hlen : channelManyResponses.incoming.length = 2147483648 :=
    List.length_replicate _ _
  refine ⟨st, hst, ?_, ?_⟩
  · rw [hp, List.length_map, hlen]
  · rw [ht, hlen]; decide

/-- C8. With the raw-byte mirror enabled and every channel write succeeding,
for every byte source that hands over its input in order (short reads
included) `SendContent` returns once the fuel exceeds the number of input
bytes; the byte blocks it writes to the mirror are the payloads it sent and,
concatenated in write order, are the input; for an empty input nothing is
written to the mirror and no Content message is written.  On `FileReader` the
same holds as soon as the fuel exceeds the number of chunks. -/
theorem C8_mirror_identical :
    (∀ (σ : Type) (rd : IOReader σ) (remaining : σ → Bytes) (chunk : Nat) (flags : Flags)
        (ch : Channel) (fuel : Nat) (r0 : σ) (w : Nat),
      InOrderSource rd remaining → 0 < chunk →
      flags.local_storage_video ≠ "" → flags.reader_open = true →
      flags.video_writer_open = true → (∀ i, ch.write_ok i = true) →
      (remaining r0).length < fuel →
        ∃ res, SendContentWith chunk flags rd ch fuel r0 w = .ok res ∧
          (mirroredBytes res.trace).flatten = remaining r0 ∧
          mirroredBytes res.trace = sentPayloads res.trace ∧
          (remaining r0 = [] →
            mirroredBytes res.trace = [] ∧ contentPayloads res.trace = [])) ∧
    (∀ (chunk : Nat) (flags : Flags) (ch : Channel) (fuel : Nat) (input : Bytes) (w : Nat),
      0 < chunk → flags.local_storage_video ≠ "" → flags.reader_open = true →
      flags.video_writer_open = true → (∀ i, ch.write_ok i = true) →
      (input.length + chunk - 1) / chunk < fuel →
        ∃ res, SendContentWith chunk flags FileReader ch fuel input w = .ok res ∧
          (mirroredBytes res.trace).flatten = input ∧
          mirroredBytes res.trace = sentPayloads res.trace ∧
          (input = [] → mirroredBytes res.trace = [] ∧ contentPayloads res.trace = [])) := by
  have hen : ∀ flags : Flags, flags.local_storage_video ≠ "" →
      flags.enable_local_storage_video = true := by
    intro flags hm
    simp [Flags.enable_local_storage_video, hm]
  constructor
  · intro σ rd remaining chunk flags ch fuel r0 w hsrc hc hm hr hv hw hf
    obtain ⟨res, ds, hres, hs, hfl⟩ := SendContentWith_inOrder rd remaining chunk flags ch fuel
      r0 w hsrc hc hr (fun _ => hv) hw hf
    have hmb : mirroredBytes res.trace = ds := by
      rw [hs.mirroredBytes_eq, hen flags hm]; simp
    refine ⟨res, hres, ?_, ?_, ?_⟩
    · rw [hmb, hfl]
    · rw [hmb, hs.sentPayloads_eq]
    · intro h0
      have hds : ds = [] := by
        cases ds with
        | nil => rfl
        | cons d rest =>
          have hd : d ≠ [] := hs.nonempty d (List.mem_cons_self _ _)
          rw [h0, List.flatten_cons] at hfl
          exact absurd (List.append_eq_nil.mp hfl).1 hd
      rw [hmb, hs.contentPayloads_eq, hds]
      simp
  · intro chunk flags ch fuel input w hc hm hr hv hw hf
    obtain ⟨res, hres, hs⟩ := SendContentWith_file_all chunk flags ch fuel input w hr
      (fun _ => hv) (by rw [chunks_length chunk hc]; exact hf) (fun i _ => hw (w + i))
    have hmb : mirroredBytes res.trace = chunks chunk input := by
      rw [hs.mirroredBytes_eq, hen flags hm]; simp
    refine ⟨res, hres, ?_, ?_, ?_⟩
    · rw [hmb]; exact chunks_flatten chunk hc input
    · rw [hmb, hs.sentPayloads_eq]
    · intro h0
      subst h0
      rw [hmb, hs.contentPayloads_eq]
      simp [chunks_nil]

/-- Instances of C8: five bytes read one byte at a time, five bytes read from
`FileReader` in chunks of two, and the empty input at `kDataChunk`. -/
theorem C8_mirror_identical_witness :
    (∃ res, SendContentWith 2 demoFlags byteAtATimeReader channelOk 6 [1, 2, 3, 4, 5] 1
        = .ok res ∧
      mirroredBytes res.trace = [[1], [2], [3], [4], [5]] ∧
      (mirroredBytes res.trace).flatten = [1, 2, 3, 4, 5]) ∧
    (∃ res, SendContentWith 2 demoFlags FileReader channelOk 4 [1, 2, 3, 4, 5] 1 = .ok res ∧
      (mirroredBytes res.trace).flatten = [1, 2, 3, 4, 5]) ∧
    (∃ res, SendContent demoFlags FileReader channelOk 1 [] 1 = .ok res ∧
      mirroredBytes res.trace = [] ∧ contentPayloads res.trace = []) := by
  refine ⟨?_, ?_, ?_⟩
  · obtain ⟨res, h, hfl, _, _⟩ :=
      C8_mirror_identical.1 Bytes byteAtATimeReader (fun s => s) 2 demoFlags channelOk 6
        [1, 2, 3, 4, 5] 1 byteAtATimeReader_inOrder (by decide) (by decide) rfl rfl
        (fun _ => rfl) (by decide)
    have hres : SendContentWith 2 demoFlags byteAtATimeReader channelOk 6 [1, 2, 3, 4, 5] 1
        = .ok _ := rfl
    rw [hres] at h
    injection h with h
    subst h
    exact ⟨_, rfl, rfl, hfl⟩
  · obtain ⟨res, h, hfl, _, _⟩ :=
      C8_mirror_identical.2 2 demoFlags channelOk 4 [1, 2, 3, 4, 5] 1 (by decide) (by decide)
        rfl rfl (fun _ => rfl) (by decide)
    exact ⟨res, h, hfl⟩
  · obtain ⟨res, h, _, _, he⟩ :=
      C8_mirror_identical.2 kDataChunk demoFlags channelOk 1 [] 1 (by decide) (by decide) rfl
        rfl (fun _ => rfl) (by decide)
    exact ⟨res, h, he rfl⟩

/-- C9. If the write of the Configuration message fails, `Run` returns false
having made no other call: the trace is that single failed write, so no
Content message is written, no byte is read from the source and nothing is
written to the raw-byte mirror. -/
theorem C9_config_failure_aborts (σ : Type) (chunk : Nat) (flags : Flags)
    (config_req : StreamingAnnotateVideoRequest) (rd : IOReader σ) (ch : Channel)
    (fuel : Nat) (r0 : σ) (h0 : ch.write_ok 0 = false) :
    ∃ r, RunWith chunk flags config_req rd ch fuel r0 = .ok r ∧
      r.status = false ∧
      r.trace = [Event.Write config_req false] ∧
      r.trace.tail.filter Event.isWrite = [] ∧
      r.trace.filter Event.isReadBytes = [] ∧
      mirroredBytes r.trace = [] ∧
      r.sender = none := by
  refine ⟨_, RunWith_config_failed chunk flags config_req rd ch fuel r0 h0, rfl, rfl, ?_, ?_, ?_,
    rfl⟩
  · simp
  · simp [Event.isReadBytes]
  · simp [mirroredBytes, Event.mirrored?]

/-- Instance of C9 on a channel that rejects the Configuration write. -/
theorem C9_config_failure_aborts_witness :
    channelConfigFails.write_ok 0 = false ∧
    ∃ r, Run demoFlags demoConfig FileReader channelConfigFails 6 demoInput = .ok r ∧
      r.status = false ∧ r.trace = [Event.Write demoConfig false] := by
  refine ⟨rfl, ?_⟩
  obtain ⟨r, h, h1, h2, _⟩ :=
    C9_config_failure_aborts Bytes kDataChunk demoFlags demoConfig FileReader channelConfigFails 6
      demoInput rfl
  exact ⟨r, h, h1, h2⟩

/-- C10 (amended). Whenever `SendContent` returns, with any byte source and any
pattern of write outcomes, the reported `requests_sent` is the number of
Content messages whose channel write succeeded, reduced to the range of a
32-bit `int`, and the reported `total_bytes_read` is the sum of the lengths of
those messages, reduced to the range of a 64-bit `long`; a message whose write
failed is in neither.  So `requests_sent` is that number whenever it is below
`2 ^ 31`, and `total_bytes_read` is that sum whenever it is below `2 ^ 63`.
On a finite in-order source, with the opens succeeding, `SendContent` does
return once the fuel exceeds the number of chunks. -/
theorem C10_reported_counts :
    (∀ (σ : Type) (chunk : Nat) (flags : Flags) (rd : IOReader σ) (ch : Channel) (fuel : Nat)
        (r0 : σ) (w : Nat) (res : SendResult σ),
      SendContentWith chunk flags rd ch fuel r0 w = .ok res →
        res.requests_sent = wrapInt32 (((sentPayloads res.trace).length : Nat) : Int) ∧
        res.total_bytes_read =
          wrapInt64 ((((sentPayloads res.trace).map List.length).sum : Nat) : Int) ∧
        ((sentPayloads res.trace).length < 2147483648 →
          res.requests_sent = (((sentPayloads res.trace).length : Nat) : Int)) ∧
        (((sentPayloads res.trace).map List.length).sum < 9223372036854775808 →
          res.total_bytes_read =
            ((((sentPayloads res.trace).map List.length).sum : Nat) : Int))) ∧
    (∀ (chunk : Nat) (flags : Flags) (ch : Channel) (fuel : Nat) (input : Bytes) (w : Nat),
      0 < chunk → flags.opens_ok = true → (input.length + chunk - 1) / chunk < fuel →
        ∃ res, SendContentWith chunk flags FileReader ch fuel input w = .ok res) := by
  constructor
  · intro σ chunk flags rd ch fuel r0 w res h
    obtain ⟨ds, failed, hs⟩ := SendContentWith_shape chunk flags rd ch fuel r0 w res h
    rw [hs.sentPayloads_eq]
    refine ⟨hs.requests_sent_eq, hs.total_bytes_read_eq, ?_, ?_⟩
    · intro hlt
      rw [hs.requests_sent_eq, wrapInt32_of_lt _ hlt]
    · intro hlt
      rw [hs.total_bytes_read_eq, wrapInt64_of_lt _ hlt]
  · intro chunk flags ch fuel input w hc ho hf
    obtain ⟨hr, hv, _⟩ := (Flags.opens_ok_iff flags).mp ho
    exact SendContentWith_file_terminates chunk flags ch fuel input w hr hv
      (by rw [chunks_length chunk hc]; exact hf)

/-- Instances of C10: a run whose second Content write fails reports one
request of two bytes, and the 2.5 MiB scenario at `kDataChunk` reports 3
requests and 2,621,440 bytes. -/
theorem C10_reported_counts_witness :
    (∃ res, SendContentWith 2 demoFlags FileReader channelSecondChunkFails 6 demoInput 1
        = .ok res ∧
      contentPayloads res.trace = [[0, 1], [2, 3]] ∧ sentPayloads res.trace = [[0, 1]] ∧
      res.requests_sent = 1 ∧ res.total_bytes_read = 2) ∧
    (∃ res, SendContent demoFlags FileReader channelOk 4 (List.replicate 2621440 0) 1 = .ok res ∧
      res.requests_sent = 3 ∧ res.total_bytes_read = 2621440) := by
  constructor
  · have h := C10_reported_counts.1 Bytes 2 demoFlags FileReader channelSecondChunkFails 6
      demoInput 1 _ rfl
    exact ⟨_, rfl, rfl, rfl, h.2.2.1 (by decide), h.2.2.2 (by decide)⟩
  · obtain ⟨res, h, hs⟩ := SendContentWith_file_all kDataChunk demoFlags channelOk 4
      (List.replicate 2621440 0) 1 rfl (fun _ => rfl)
      (by rw [chunks_length kDataChunk (by decide), List.length_replicate]; decide)
      (fun _ _ => rfl)
    have hc := C10_reported_counts.1 Bytes kDataChunk demoFlags FileReader channelOk 4
      (List.replicate 2621440 0) 1 res h
    have hn : (sentPayloads res.trace).length = 3 := by
      rw [hs.sentPayloads_eq, chunks_length kDataChunk (by decide), List.length_replicate]
      decide
    have hb : ((sentPayloads res.trace).map List.length).sum = 2621440 := by
      rw [hs.sentPayloads_eq, ← List.length_flatten, chunks_flatten kDataChunk (by decide),
        List.length_replicate]
    refine ⟨res, h, ?_, ?_⟩
    · rw [hc.2.2.1 (by rw [hn]; decide), hn]; rfl
    · rw [hc.2.2.2 (by rw [hb]; decide), hb]; rfl

/-- Counterexample to C10 as stated: on an input of `2 ^ 31` chunks of
`kDataChunk` bytes with every write succeeding, `SendContent` returns having
sent `2 ^ 31` Content messages and reports `requests_sent = -2 ^ 31`. -/
theorem C10_counterexample :
    ∃ res, SendContent demoFlags FileReader channelOk 2147483649 hugeInput 1 = .ok res ∧
      (sentPayloads res.trace).length = 2147483648 ∧
      res.requests_sent = -2147483648 := by
  have hlen : hugeInput.length = 2251799813685248 := List.length_replicate _ _
  have hn : (chunks kDataChunk hugeInput).length = 2147483648 := by
    rw [chunks_length kDataChunk (by decide), hlen]; decide
  obtain ⟨res, h, hs⟩ := SendContentWith_file_all kDataChunk demoFlags channelOk 2147483649
    hugeInput 1 rfl (fun _ => rfl) (by rw [hn]; decide) (fun _ _ => rfl)
  refine ⟨res, h, ?_, ?_⟩
  · rw [hs.sentPayloads_eq, hn]
  · rw [hs.requests_sent_eq, hn]; decide

end api.video
